import Mathlib

/-!
Verification development for the clearway repository.

The definitions below are shallow embeddings of the Python sources:
`src/country_detector.py`, `src/scrapers/scraper_registry.py`, `src/app.py`,
`src/scrapers/base_eaip_scraper.py`, `src/scrapers/estonia_aip_scraper_playwright.py`,
`src/scrapers/eurocontrol_generic_scraper.py` and
`src/scrapers/india_aip_scraper_playwright.py`.
Strings are modelled as Lean strings (lists of characters); Python string
methods (upper, strip, find, rfind, slicing, in, replace, startswith,
endswith) are modelled by the py* helpers, with str.upper and the regex
character classes read over ASCII.  Each regular expression used by the
scraped-field parsers is embedded as an explicit executable matcher that
follows leftmost-match semantics with the alternation and laziness of the
original pattern.  Browser effects (Playwright) are modelled by explicit
world records holding the outcome each page action would produce.
-/

namespace Clearway

/-- ASCII model of the Python method str.upper (character-wise). -/
def pyUpper (s : String) : String := ⟨s.data.map Char.toUpper⟩

/-- ASCII model of the Python method str.lower (character-wise). -/
def pyLower (s : String) : String := ⟨s.data.map Char.toLower⟩

/-- Whitespace characters of the Python regex class backslash-s and of
str.strip, over ASCII. -/
def wsChar (c : Char) : Bool :=
  c = ' ' || c = '\t' || c = '\n' || c = '\r' || c = '\x0b' || c = '\x0c'

/-- Python str.strip with no argument: drop whitespace at both ends. -/
def pyStrip (s : String) : String :=
  ⟨((s.data.dropWhile fun c => wsChar c).reverse.dropWhile fun c => wsChar c).reverse⟩

/-- Python slice l[a:b] over a character list (b clamped to the length,
empty when b is at most a). -/
def pySliceL (l : List Char) (a b : Nat) : List Char := (l.drop a).take (b - a)

/-- Python slice s[a:b] on strings. -/
def pySlice (s : String) (a b : Nat) : String := ⟨pySliceL s.data a b⟩

/-- Python slice s[:n]. -/
def pyTake (s : String) (n : Nat) : String := ⟨s.data.take n⟩

/-- Character-list test: nee stands at the head of the list. -/
def leadsWith : List Char → List Char → Bool
  | [], _ => true
  | _ :: _, [] => false
  | p :: ps, c :: cs => p = c && leadsWith ps cs

/-- Python substring test (nee in hay) over character lists. -/
def hasSub (nee : List Char) : List Char → Bool
  | [] => leadsWith nee []
  | c :: cs => leadsWith nee (c :: cs) || hasSub nee cs

/-- Index of the first occurrence of nee in hay, if any. -/
def findIdx (nee : List Char) : List Char → Option Nat
  | [] => if leadsWith nee [] then some 0 else none
  | c :: cs =>
    if leadsWith nee (c :: cs) then some 0
    else (findIdx nee cs).map (· + 1)

/-- Index of the last occurrence of nee in hay, if any. -/
def lastIdx (nee : List Char) : List Char → Option Nat
  | [] => if leadsWith nee [] then some 0 else none
  | c :: cs =>
    match (lastIdx nee cs).map (· + 1) with
    | some n => some n
    | none => if leadsWith nee (c :: cs) then some 0 else none

/-- Python hay.find(nee): first index, or -1. -/
def pyFind (hay nee : String) : Int :=
  match findIdx nee.data hay.data with
  | some n => (n : Int)
  | none => -1

/-- Python hay.find(nee, start): first index at or after start, or -1. -/
def pyFindFrom (hay nee : String) (start : Nat) : Int :=
  match findIdx nee.data (hay.data.drop start) with
  | some n => ((start + n : Nat) : Int)
  | none => -1

/-- Python hay.find(nee, a, b): first occurrence lying inside [a, b), or -1. -/
def pyFindBetween (hay nee : String) (a b : Nat) : Int :=
  match findIdx nee.data (pySliceL hay.data a b) with
  | some n => ((a + n : Nat) : Int)
  | none => -1

/-- Python hay.rfind(nee, a, b): last occurrence lying inside [a, b), or -1. -/
def pyRfindBetween (hay nee : String) (a b : Nat) : Int :=
  match lastIdx nee.data (pySliceL hay.data a b) with
  | some n => ((a + n : Nat) : Int)
  | none => -1

/-- Python s.startswith(p). -/
def pyStartsWith (s p : String) : Bool := leadsWith p.data s.data

/-- Python s.endswith(p). -/
def pyEndsWith (s p : String) : Bool := leadsWith p.data.reverse s.data.reverse

/-- Python s.replace(a, b) for single characters. -/
def pyReplaceChar (a b : Char) (s : String) : String :=
  ⟨s.data.map fun c => if c = a then b else c⟩

/-- Case-insensitive character comparison (re.IGNORECASE over ASCII). -/
def eqCI (a b : Char) : Bool := a.toUpper = b.toUpper

/-- Match a literal pattern case-insensitively at the head of the input;
returns the rest of the input past the literal. -/
def leadsCI : List Char → List Char → Option (List Char)
  | [], s => some s
  | _ :: _, [] => none
  | p :: ps, c :: cs => if eqCI p c then leadsCI ps cs else none

/-- Count and drop a maximal run of regex whitespace at the head of the
input: models a greedy backslash-s-star or backslash-s-plus. -/
def dropWsCount : List Char → Nat × List Char
  | [] => (0, [])
  | c :: cs =>
    if wsChar c then
      let p := dropWsCount cs
      (p.1 + 1, p.2)
    else (0, c :: cs)

/-- Drop a maximal run of regex whitespace (greedy backslash-s-star). -/
def dropWsAll (l : List Char) : List Char := l.dropWhile fun c => wsChar c

/-- Python dict built from a literal list of key-value pairs: a repeated
key keeps the value of its last occurrence. -/
def pyDict {α : Type} (tbl : List (String × α)) (k : String) : Option α :=
  (tbl.reverse.find? fun kv => kv.1 = k).map (·.2)

/-- Transcription of the STANDARD_PREFIXES dict literal of
src/country_detector.py, in source order with its duplicate keys. -/
def STANDARD_PREFIXES : List (String × String) := [
  ("K", "United States of America"),
  ("C", "Canada"),
  ("M", "Mexico"),
  ("TI", "Costa Rica"),
  ("MS", "El Salvador"),
  ("MG", "Guatemala"),
  ("MH", "Honduras"),
  ("MP", "Panama"),
  ("E", "Norway"),
  ("EN", "Norway"),
  ("ES", "Sweden"),
  ("EF", "Finland"),
  ("EK", "Denmark"),
  ("BI", "Iceland"),
  ("EG", "United Kingdom"),
  ("EI", "Ireland"),
  ("LF", "France"),
  ("ED", "Germany"),
  ("LS", "Switzerland"),
  ("LO", "Austria"),
  ("LOWW", "Austria"),
  ("L", "Spain"),
  ("LE", "Spain"),
  ("LJ", "Slovenia"),
  ("LD", "Croatia"),
  ("LY", "Serbia"),
  ("LZ", "Bulgaria"),
  ("LH", "Hungary"),
  ("LR", "Romania"),
  ("LK", "Czech Republic"),
  ("EP", "Poland"),
  ("LKPR", "Czech Republic"),
  ("LI", "Italy"),
  ("LG", "Greece"),
  ("LT", "Turkey"),
  ("LP", "Portugal"),
  ("EV", "Latvia"),
  ("EE", "Estonia"),
  ("EY", "Lithuania"),
  ("LA", "Albania"),
  ("LQ", "Bosnia and Herzegovina"),
  ("LZBB", "Bulgaria"),
  ("BK", "Kosovo"),
  ("LJ", "Slovenia"),
  ("LJLJ", "Slovenia"),
  ("LZ", "Slovakia"),
  ("VH", "Hong Kong"),
  ("RC", "Taiwan"),
  ("RJ", "Japan"),
  ("RK", "South Korea"),
  ("VT", "Thailand"),
  ("WM", "Malaysia"),
  ("WS", "Singapore"),
  ("W", "Indonesia"),
  ("VI", "India"),
  ("OP", "Pakistan"),
  ("VG", "Bangladesh"),
  ("VN", "Nepal"),
  ("V", "Sri Lanka"),
  ("OB", "Bahrain"),
  ("OE", "Saudi Arabia"),
  ("OM", "United Arab Emirates"),
  ("OO", "Oman"),
  ("OK", "Kuwait"),
  ("LL", "Israel"),
  ("OJ", "Jordan"),
  ("OL", "Lebanon"),
  ("OS", "Syria"),
  ("OR", "Iraq"),
  ("OI", "Iran"),
  ("UG", "Georgia"),
  ("UA", "Kazakhstan"),
  ("UO", "Kyrgyzstan"),
  ("UT", "Tajikistan"),
  ("UT", "Turkmenistan"),
  ("UZ", "Uzbekistan"),
  ("ZM", "Mongolia"),
  ("DA", "Algeria"),
  ("DT", "Tunisia"),
  ("HL", "Libya"),
  ("HE", "Egypt"),
  ("H", "Ethiopia"),
  ("HA", "Ethiopia"),
  ("HB", "Switzerland"),
  ("HC", "Somalia"),
  ("HD", "Djibouti"),
  ("F", "South Africa"),
  ("FA", "South Africa"),
  ("FB", "Botswana"),
  ("FC", "Republic of the Congo"),
  ("FD", "Eswatini"),
  ("FE", "Central African Republic"),
  ("FG", "Equatorial Guinea"),
  ("FH", "Saint Helena"),
  ("FI", "Mauritius"),
  ("FK", "Cameroon"),
  ("FL", "Zambia"),
  ("FM", "Comoros"),
  ("FN", "Angola"),
  ("FO", "Gabon"),
  ("FP", "São Tomé and Príncipe"),
  ("FQ", "Mozambique"),
  ("FS", "Seychelles"),
  ("FT", "Chad"),
  ("FV", "Zimbabwe"),
  ("FW", "Malawi"),
  ("FX", "Lesotho"),
  ("FY", "Namibia"),
  ("FZ", "Democratic Republic of the Congo"),
  ("G", "Senegal"),
  ("GO", "Senegal"),
  ("GQ", "Mauritania"),
  ("GS", "Western Sahara"),
  ("GV", "Cabo Verde"),
  ("HR", "Rwanda"),
  ("HS", "Sudan"),
  ("HT", "Tanzania"),
  ("HU", "Uganda"),
  ("FV", "Zimbabwe"),
  ("DN", "Nigeria"),
  ("DF", "Burkina Faso"),
  ("DFOO", "Burkina Faso"),
  ("DI", "Ivory Coast (Côte d\x27Ivoire)"),
  ("DXXX", "Ivory Coast (Côte d\x27Ivoire)"),
  ("DX", "Togo"),
  ("DG", "Ghana"),
  ("DFOO", "Ghana"),
  ("SA", "Argentina"),
  ("SB", "Brazil"),
  ("SC", "Chile"),
  ("SE", "Ecuador"),
  ("SK", "Colombia"),
  ("SL", "Bolivia"),
  ("SM", "Suriname"),
  ("SO", "French Guiana"),
  ("SP", "Peru"),
  ("SU", "Uruguay"),
  ("SV", "Venezuela"),
  ("SY", "Guyana"),
  ("S", "Paraguay"),
  ("Y", "Australia"),
  ("YB", "Australia"),
  ("YC", "Australia"),
  ("YD", "Australia"),
  ("YF", "Australia"),
  ("YG", "Australia"),
  ("YH", "Australia"),
  ("YJ", "Australia"),
  ("YK", "Australia"),
  ("YL", "Australia"),
  ("YM", "Australia"),
  ("YN", "Australia"),
  ("YO", "Australia"),
  ("YP", "Australia"),
  ("YQ", "Australia"),
  ("YR", "Australia"),
  ("YS", "Australia"),
  ("YT", "Australia"),
  ("YU", "Australia"),
  ("YV", "Australia"),
  ("YW", "Australia"),
  ("YX", "Australia"),
  ("YY", "Australia"),
  ("YZ", "Australia"),
  ("NZ", "New Zealand"),
  ("AG", "Solomon Islands"),
  ("AN", "Nauru"),
  ("AY", "Papua New Guinea"),
  ("NF", "Fiji"),
  ("NG", "Kiribati"),
  ("NI", "Vanuatu"),
  ("NL", "Wallis and Futuna"),
  ("NS", "Samoa"),
  ("NT", "French Polynesia"),
  ("NV", "New Caledonia"),
  ("NW", "New Caledonia"),
  ("NX", "Tonga"),
  ("NZ", "New Zealand")]

/-- Entry of the countries JSON file read by load_countries_data; the
fields are the dict keys the code accesses, with the get defaults folded
into the record (the JSON asset itself is data outside src). -/
structure CountryEntry where
  country : String
  region : String
  ctype : String
  link : String
deriving DecidableEq

/-- Dict returned by get_country_from_code: the ctype and link keys are
present only on the branch that found the country in the JSON data. -/
structure CountryInfo where
  country : String
  region : String
  code : String
  ctype : Option String
  link : Option String
deriving DecidableEq

/-- Return value built by get_country_from_code once a standard prefix
hits: look the country name up in the JSON data (case-insensitively) and
return either the enriched dict or the basic one. -/
def countryResult (data : List CountryEntry) (countryName pfx : String) : CountryInfo :=
  match data.find? fun cd => pyUpper cd.country = pyUpper countryName with
  | some cd =>
    { country := cd.country, region := cd.region, code := pfx,
      ctype := some cd.ctype, link := some cd.link }
  | none =>
    { country := countryName, region := "UNKNOWN", code := pfx,
      ctype := none, link := none }

/-- Loop of get_country_from_code over the candidate prefix lengths. -/
def prefixLenLoop (data : List CountryEntry) (code : String) : List Nat → Option CountryInfo
  | [] => none
  | n :: ns =>
    if code.length ≥ n then
      match pyDict STANDARD_PREFIXES (pyTake code n) with
      | some countryName => some (countryResult data countryName (pyTake code n))
      | none => prefixLenLoop data code ns
    else prefixLenLoop data code ns

/-- Embedding of country_detector.get_country_from_code: uppercase and
strip the code, refuse codes shorter than 3 characters, then try the
prefixes of length 3, 2, 1 against STANDARD_PREFIXES. -/
def get_country_from_code (data : List CountryEntry) (airport_code : String) :
    Option CountryInfo :=
  let code := pyStrip (pyUpper airport_code)
  if code = "" ∨ code.length < 3 then none
  else prefixLenLoop data code [3, 2, 1]

/-- Entry of the AIRPORT_CODE_PREFIXES dict of scraper_registry.py. -/
structure ScraperEntry where
  pfx : String
  country : String
  moduleName : String
  className : String
deriving DecidableEq

/-- Transcription of the AIRPORT_CODE_PREFIXES dict literal of
src/scrapers/scraper_registry.py, in source order. -/
def AIRPORT_CODE_PREFIXES : List ScraperEntry := [
  ⟨"K", "USA", "airport_scraper", "AirportScraper"⟩,
  ⟨"LF", "FRANCE", "france_aip_scraper", "FranceAIPScraper"⟩,
  ⟨"EE", "ESTONIA", "estonia_aip_scraper_playwright", "EstoniaAIPScraperPlaywright"⟩,
  ⟨"EF", "FINLAND", "finland_aip_scraper_playwright", "FinlandAIPScraperPlaywright"⟩,
  ⟨"EV", "LATVIA", "latvia_aip_scraper_playwright", "LatviaAIPScraperPlaywright"⟩,
  ⟨"LA", "ALBANIA", "albania_aip_scraper_playwright", "AlbaniaAIPScraperPlaywright"⟩,
  ⟨"OB", "BAHRAIN", "bahrain_aip_scraper_playwright", "BahrainAIPScraperPlaywright"⟩,
  ⟨"LQ", "BOSNIA_AND_HERZEGOVINA", "bosnia_and_herzegovina_aip_scraper_playwright",
    "BosniaAndHerzegovinaAIPScraperPlaywright"⟩,
  ⟨"GV", "CABO_VERDE", "cabo_verde_aip_scraper_playwright", "CaboVerdeAIPScraperPlaywright"⟩,
  ⟨"SC", "CHILE", "chile_aip_scraper_playwright", "ChileAIPScraperPlaywright"⟩,
  ⟨"MR", "COSTA_RICA", "costa_rica_aip_scraper_playwright", "CostaRicaAIPScraperPlaywright"⟩,
  ⟨"LD", "CROATIA", "croatia_aip_scraper_playwright", "CroatiaAIPScraperPlaywright"⟩,
  ⟨"SE", "ECUADOR", "ecuador_aip_scraper_playwright", "EcuadorAIPScraperPlaywright"⟩,
  ⟨"MS", "EL_SALVADOR", "el_salvador_aip_scraper_playwright", "ElSalvadorAIPScraperPlaywright"⟩,
  ⟨"UG", "GEORGIA", "georgia_aip_scraper_playwright", "GeorgiaAIPScraperPlaywright"⟩,
  ⟨"MG", "GUATEMALA", "guatemala_aip_scraper_playwright", "GuatemalaAIPScraperPlaywright"⟩,
  ⟨"MH", "HONDURAS", "honduras_aip_scraper_playwright", "HondurasAIPScraperPlaywright"⟩,
  ⟨"VH", "HONG_KONG", "hong_kong_aip_scraper_playwright", "HongKongAIPScraperPlaywright"⟩,
  ⟨"LH", "HUNGARY", "hungary_aip_scraper_playwright", "HungaryAIPScraperPlaywright"⟩,
  ⟨"VI", "INDIA", "india_aip_scraper_playwright", "IndiaAIPScraperPlaywright"⟩,
  ⟨"LL", "ISRAEL", "israel_aip_scraper_playwright", "IsraelAIPScraperPlaywright"⟩,
  ⟨"UA", "KAZAKHSTAN", "kazakhstan_aip_scraper_playwright", "KazakhstanAIPScraperPlaywright"⟩,
  ⟨"BK", "KOSOVO", "kosovo_aip_scraper_playwright", "KosovoAIPScraperPlaywright"⟩,
  ⟨"UO", "KYRGYZSTAN", "kyrgyzstan_aip_scraper_playwright", "KyrgyzstanAIPScraperPlaywright"⟩,
  ⟨"WM", "MALAYSIA", "malaysia_aip_scraper_playwright", "MalaysiaAIPScraperPlaywright"⟩,
  ⟨"ZM", "MONGOLIA", "mongolia_aip_scraper_playwright", "MongoliaAIPScraperPlaywright"⟩,
  ⟨"EN", "NORWAY", "norway_aip_scraper_playwright", "NorwayAIPScraperPlaywright"⟩,
  ⟨"OO", "OMAN", "oman_aip_scraper_playwright", "OmanAIPScraperPlaywright"⟩,
  ⟨"EP", "POLAND", "poland_aip_scraper_playwright", "PolandAIPScraperPlaywright"⟩,
  ⟨"LP", "PORTUGAL", "portugal_aip_scraper_playwright", "PortugalAIPScraperPlaywright"⟩,
  ⟨"OE", "SAUDI_ARABIA", "saudi_arabia_aip_scraper_playwright", "SaudiArabiaAIPScraperPlaywright"⟩,
  ⟨"WS", "SINGAPORE", "singapore_aip_scraper_playwright", "SingaporeAIPScraperPlaywright"⟩,
  ⟨"RK", "SOUTH_KOREA", "south_korea_aip_scraper_playwright", "SouthKoreaAIPScraperPlaywright"⟩,
  ⟨"ES", "SWEDEN", "sweden_aip_scraper_playwright", "SwedenAIPScraperPlaywright"⟩,
  ⟨"RC", "TAIWAN", "taiwan_aip_scraper_playwright", "TaiwanAIPScraperPlaywright"⟩,
  ⟨"VT", "THAILAND", "thailand_aip_scraper_playwright", "ThailandAIPScraperPlaywright"⟩,
  ⟨"UK", "UKRAINE", "ukraine_aip_scraper_playwright", "UkraineAIPScraperPlaywright"⟩,
  ⟨"OM", "UNITED_ARAB_EMIRATES", "united_arab_emirates_aip_scraper_playwright",
    "UnitedArabEmiratesAIPScraperPlaywright"⟩,
  ⟨"EG", "UNITED_KINGDOM", "united_kingdom_aip_scraper_playwright",
    "UnitedKingdomAIPScraperPlaywright"⟩]

/-- Lookup in the AIRPORT_CODE_PREFIXES dict (keys are unique). -/
def regDict (k : String) : Option ScraperEntry :=
  AIRPORT_CODE_PREFIXES.reverse.find? fun e => e.pfx = k

/-- Loop of scraper_registry.get_country_from_code over prefix lengths. -/
def regLenLoop (code : String) : List Nat → Option String
  | [] => none
  | n :: ns =>
    match regDict (pyTake code n) with
    | some e => some e.country
    | none => regLenLoop code ns

/-- Embedding of scraper_registry.get_country_from_code: uppercase and
strip, then try only the prefixes of length 2 and 1, with no check on the
length of the input. -/
def reg_get_country_from_code (airport_code : String) : Option String :=
  regLenLoop (pyStrip (pyUpper airport_code)) [2, 1]

/-- Lookup in a registry cache dict (first binding wins; an insert
prepends, shadowing any earlier binding, like a Python dict assignment). -/
def cacheGet {α : Type} (cache : List (String × α)) (k : String) : Option α :=
  (cache.find? fun kv => kv.1 = k).map (·.2)

/-- Assignment cache[k] = v modelled by prepending the binding. -/
def cacheSet {α : Type} (cache : List (String × α)) (k : String) (v : α) :
    List (String × α) := (k, v) :: cache

/-- Embedding of app.get_scraper.  The parameter load stands for
scraper_registry.get_scraper_instance, which returns None when the
country has no registered or loadable scraper or instantiation throws;
cache stands for the scraper_instances dict.  Returns the scraper and the
updated cache, or the raised error. -/
def get_scraper {α : Type} (load : String → Option α) (cache : List (String × α))
    (country : String) : Except String (α × List (String × α)) :=
  let step : String × List (String × α) :=
    match cacheGet cache country with
    | some _ => (country, cache)
    | none =>
      match load country with
      | some s => (country, cacheSet cache country s)
      | none =>
        match cacheGet cache "USA" with
        | some _ => ("USA", cache)
        | none =>
          match load "USA" with
          | some s => ("USA", cacheSet cache "USA" s)
          | none => ("USA", cache)
  match cacheGet step.2 step.1 with
  | some r => Except.ok (r, step.2)
  | none => Except.error ("Scraper not available for " ++ step.1)

/-- Alternation (H24|NIL) tried at the head of the input, in pattern
order, case-insensitively; returns the matched text and the rest. -/
def altH24NIL (t : List Char) : Option (String × List Char) :=
  match leadsCI "H24".data t with
  | some r => some (⟨t.take 3⟩, r)
  | none =>
    match leadsCI "NIL".data t with
    | some r => some (⟨t.take 3⟩, r)
    | none => none

/-- Lazy dot-star with re.DOTALL followed by (H24|NIL): scan forward for
the first position where the alternation matches. -/
def scanH24NIL : List Char → Option (String × List Char)
  | [] => none
  | c :: cs =>
    match altH24NIL (c :: cs) with
    | some r => some r
    | none => scanH24NIL cs

/-- Alternation (H24|NIL|May be requested) of the customs pattern. -/
def altCustoms (t : List Char) : Option (String × List Char) :=
  match altH24NIL t with
  | some r => some r
  | none =>
    match leadsCI "May be requested".data t with
    | some r => some (⟨t.take 16⟩, r)
    | none => none

/-- Lazy dot-star with re.DOTALL followed by the customs alternation. -/
def scanCustomsAlt : List Char → Option (String × List Char)
  | [] => none
  | c :: cs =>
    match altCustoms (c :: cs) with
    | some r => some r
    | none => scanCustomsAlt cs

/-- Lazy dot-star with re.DOTALL followed by a case-insensitive literal;
returns the rest of the input past the literal. -/
def scanLitCI (lit : List Char) : List Char → Option (List Char)
  | [] =>
    match leadsCI lit [] with
    | some r => some r
    | none => none
  | c :: cs =>
    match leadsCI lit (c :: cs) with
    | some r => some r
    | none => scanLitCI lit cs

/-- Core of the AD-Administration pattern past the leading group: AD,
one or more whitespace, Administration, lazy gap, (H24|NIL).  Returns
group 1 and the rest of the input. -/
def adminCore (t : List Char) : Option (String × List Char) :=
  match leadsCI "AD".data t with
  | none => none
  | some r1 =>
    let p := dropWsCount r1
    if p.1 = 0 then none
    else
      match leadsCI "Administration".data p.2 with
      | none => none
      | some r2 => scanH24NIL r2

/-- Core of the AD-Operator pattern past the leading group. -/
def operatorCore (t : List Char) : Option (String × List Char) :=
  match leadsCI "AD".data t with
  | none => none
  | some r1 =>
    let p := dropWsCount r1
    if p.1 = 0 then none
    else
      match leadsCI "Operator".data p.2 with
      | none => none
      | some r2 => scanH24NIL r2

/-- Core of the 1AD fallback pattern of the operator field. -/
def oneADCore (t : List Char) : Option (String × List Char) :=
  match leadsCI "1AD".data t with
  | none => none
  | some r => scanH24NIL r

/-- Core of the customs pattern: Customs, lazy gap, immigration, lazy
gap, (H24|NIL|May be requested). -/
def customsCore (t : List Char) : Option (String × List Char) :=
  match leadsCI "Customs".data t with
  | none => none
  | some r1 =>
    match scanLitCI "immigration".data r1 with
    | none => none
    | some r2 => scanCustomsAlt r2

/-- Positions after the first of a pattern guarded by the non-capturing
group of caret-or-whitespace: at every later position the match must
consume one whitespace character first.  Returns group 0 and group 1 of
the leftmost match. -/
def searchGuardedFrom (core : List Char → Option (String × List Char)) :
    List Char → Option (String × String)
  | [] => none
  | c :: cs =>
    match (if wsChar c then core cs else none) with
    | some (g1, rest) => some (⟨(c :: cs).take (cs.length + 1 - rest.length)⟩, g1)
    | none => searchGuardedFrom core cs

/-- re.search of a pattern guarded by caret-or-whitespace: at position
zero the caret branch is tried first, then the whitespace branch at each
position left to right. -/
def searchGuarded (core : List Char → Option (String × List Char)) (t : List Char) :
    Option (String × String) :=
  match core t with
  | some (g1, rest) => some (⟨t.take (t.length - rest.length)⟩, g1)
  | none => searchGuardedFrom core t

/-- re.search of an unguarded pattern: try the core at each position
left to right; returns group 0 and group 1 of the leftmost match. -/
def searchPlain (core : List Char → Option (String × List Char)) :
    List Char → Option (String × String)
  | [] =>
    match core [] with
    | some (g1, _) => some ("", g1)
    | none => none
  | c :: cs =>
    match core (c :: cs) with
    | some (g1, rest) => some (⟨(c :: cs).take (cs.length + 1 - rest.length)⟩, g1)
    | none => searchPlain core cs

/-- ASCII letter test (the class [A-Z] under re.IGNORECASE). -/
def asciiAlpha (c : Char) : Bool :=
  ('A' ≤ c && c ≤ 'Z') || ('a' ≤ c && c ≤ 'z')

/-- Negative lookbehind tests of the ATS pattern, over the reversed text
read so far: not preceded by the literal Reporting-space and not by MET
plus one whitespace (both case-insensitive). -/
def atsLookbehindOK (rev : List Char) : Bool :=
  !(leadsCI " gnitropeR".data rev).isSome &&
  !(match rev with
    | a :: b :: c :: d :: _ => wsChar a && eqCI b 'T' && eqCI c 'E' && eqCI d 'M'
    | _ => false)

/-- Core of the ATS pattern at a position: the literal ATS not followed
by a letter, then a lazy gap and (H24|NIL).  Returns group 1. -/
def atsCore (t : List Char) : Option String :=
  match leadsCI "ATS".data t with
  | none => none
  | some rest =>
    match rest with
    | c :: _ => if asciiAlpha c then none else (scanH24NIL rest).map (·.1)
    | [] => (scanH24NIL []).map (·.1)

/-- re.search of the ATS pattern with its two negative lookbehinds; rev
is the reversed prefix of the text before the current position. -/
def searchATS (rev : List Char) : List Char → Option String
  | [] => none
  | c :: cs =>
    match (if atsLookbehindOK rev then atsCore (c :: cs) else none) with
    | some g1 => some g1
    | none => searchATS (c :: rev) cs

/-- Value stored for a found AD-Administration or AD-Operator match in
base_eaip_scraper: H24 when group 0 contains H24 in upper case, else the
captured group; an empty value falls back to NIL. -/
def hourValue (g0 g1 : String) : String :=
  let hours := if hasSub "H24".data (pyUpper g0).data then "H24" else g1
  if hours = "" then "NIL" else hours

/-- Shared end bounding of the operational-hours parsers: given the
resolved start index, the end index is the first occurrence of AD 2.4 in
the whole text when the start was found; the segment is the slice when
both bounds exist, else the whole text. -/
def boundedSegment (text : String) (s1 : Int) : String :=
  let e1 := if s1 ≠ -1 then pyFind (pyUpper text) "AD 2.4" else -1
  if s1 ≠ -1 ∧ e1 ≠ -1 then pySlice text s1.toNat e1.toNat else text

/-- Segment bounding of _parse_operational_hours in base_eaip_scraper:
start at the AD 2.3 OPERATIONAL HOURS header (or OPERATIONAL HOURS), end
at the first occurrence of AD 2.4 in the whole text; the whole text when
either bound is missing. -/
def op_hours_segment (text : String) : String :=
  let upper := pyUpper text
  let s0 := pyFind upper "AD 2.3 OPERATIONAL HOURS"
  let s1 := if s0 = -1 then pyFind upper "OPERATIONAL HOURS" else s0
  boundedSegment text s1

/-- Segment bounding of _parse_operational_hours in
estonia_aip_scraper_playwright (lines 236 to 246): three start-header
candidates, then the same AD 2.4 end bound. -/
def estonia_op_segment (text : String) : String :=
  let upper := pyUpper text
  let s0 := pyFind upper "AD 2.3 OPERATIONAL HOURS"
  let s1 := if s0 = -1 then pyFind upper "AD 2.2 OPERATIONAL HOURS" else s0
  let s2 := if s1 = -1 then pyFind upper "OPERATIONAL HOURS" else s1
  boundedSegment text s2

/-- Embedding of BaseEAIPScraperPlaywright._parse_operational_hours: the
result list of (day, hours) pairs, in the order the source appends them. -/
def parse_operational_hours (text : String) : List (String × String) :=
  let seg := (op_hours_segment text).data
  let adminM := searchGuarded adminCore seg
  let opM :=
    match searchGuarded operatorCore seg with
    | some r => some r
    | none => searchPlain oneADCore seg
  let customsM := searchPlain customsCore seg
  let atsM := searchATS [] seg
  (match adminM with
   | some (g0, g1) => [("AD Administration", hourValue g0 g1)]
   | none => []) ++
  (match opM with
   | some (g0, g1) => [("AD Operator", hourValue g0 g1)]
   | none => []) ++
  [("Customs and immigration",
    match customsM with
    | some (_, g1) =>
      if hasSub "May be requested".data g1.data then "On request"
      else if hasSub "H24".data (pyUpper g1).data then "H24" else "NIL"
    | none => "NIL")] ++
  [("ATS",
    match atsM with
    | some g1 => if hasSub "H24".data (pyUpper g1).data then "H24" else "NIL"
    | none => "NIL")] ++
  (match adminM with
   | some _ => []
   | none => [("AD Administration", "NIL")]) ++
  (match opM with
   | some _ => []
   | none => [("AD Operator", "NIL")])

/-- Embedding of BaseEAIPScraperPlaywright._get_field_value: first entry
whose day equals the field name, NIL when none does. -/
def get_field_value (hours : List (String × String)) (field : String) : String :=
  match hours.find? fun h => h.1 = field with
  | some h => h.2
  | none => "NIL"

/-- Whitespace collapse of re.sub over backslash-s-plus to one space;
the flag tracks whether the previous character was inside a run. -/
def collapseWsAux : Bool → List Char → List Char
  | _, [] => []
  | prevWs, c :: cs =>
    if wsChar c then
      if prevWs then collapseWsAux true cs else ' ' :: collapseWsAux true cs
    else c :: collapseWsAux false cs

/-- re.sub of backslash-s-plus by a single space. -/
def collapseWs (s : String) : String := ⟨collapseWsAux false s.data⟩

/-- Anchored prefix strip of re.sub over caret-REMARKS-then-colons-or-
whitespace, case-insensitive. -/
def stripRemarksHead (s : String) : String :=
  match leadsCI "REMARKS".data s.data with
  | some rest => ⟨rest.dropWhile fun c => c = ':' || wsChar c⟩
  | none => s

/-- Anchored test of the pattern AD-whitespace-plus-2.3 at the head of a
character list. -/
def ad23At (l : List Char) : Bool :=
  match leadsCI "AD".data l with
  | none => false
  | some r =>
    let p := dropWsCount r
    p.1 ≠ 0 && leadsWith "2.3".data p.2

/-- Cut of re.sub over AD-whitespace-2.3 followed by dot-star-dollar with
re.DOTALL: keep the text before the leftmost occurrence. -/
def cutScanAD23 : List Char → List Char
  | [] => []
  | c :: cs => if ad23At (c :: cs) then [] else c :: cutScanAD23 cs

/-- Candidate value of BaseEAIPScraperPlaywright._extract_remarks; none
models every early fall-through to the final NIL. -/
def extract_remarks_core (text : String) : Option String :=
  let upper := pyUpper text
  let ad23 := pyFind upper "AD 2.3"
  if ad23 = -1 then none
  else
    let ad22 := pyRfindBetween upper "AD 2.2" 0 ad23.toNat
    if ad22 = -1 then none
    else
      let ri := pyFindBetween upper "REMARKS" ad22.toNat ad23.toNat
      if ri = -1 then none
      else
        let rt := pySlice text ri.toNat (min ad23.toNat (ri.toNat + 500))
        let rt := stripRemarksHead rt
        let rt : String := ⟨cutScanAD23 rt.data⟩
        let rt := collapseWs (pyStrip rt)
        if rt.length > 5 then some (pyTake rt 200) else none

/-- Embedding of BaseEAIPScraperPlaywright._extract_remarks. -/
def extract_remarks (text : String) : String :=
  (extract_remarks_core text).getD "NIL"

/-- Separator class [/, ] of the traffic-type patterns. -/
def sepChar (c : Char) : Bool := c = '/' || c = ',' || c = ' '

/-- Alternation (IFR[/, ]VFR|VFR[/, ]IFR|IFR|VFR) tried at the head of
the input in pattern order; returns the matched text. -/
def trafficAlt (t : List Char) : Option String :=
  match leadsCI "IFR".data t with
  | some (s :: r2) =>
    if sepChar s ∧ (leadsCI "VFR".data r2).isSome then some ⟨t.take 7⟩
    else
      match leadsCI "VFR".data t with
      | some _ => some ⟨t.take 3⟩
      | none => some ⟨t.take 3⟩
  | some [] => some ⟨t.take 3⟩
  | none =>
    match leadsCI "VFR".data t with
    | some (s :: r2) =>
      if sepChar s ∧ (leadsCI "IFR".data r2).isSome then some ⟨t.take 7⟩
      else some ⟨t.take 3⟩
    | some [] => some ⟨t.take 3⟩
    | none => none

/-- Lazy dot-star without re.DOTALL followed by the traffic alternation:
scan forward, never across a newline. -/
def scanTrafficAlt : List Char → Option String
  | [] => none
  | c :: cs =>
    match trafficAlt (c :: cs) with
    | some g => some g
    | none => if c = '\n' then none else scanTrafficAlt cs

/-- Core of the first traffic pattern: Type, optional s, whitespace, of,
whitespace, traffic, then the lazy gap and alternation. -/
def typesOfTrafficCore (t : List Char) : Option String :=
  match leadsCI "Type".data t with
  | none => none
  | some r1 =>
    let afterS :=
      match r1 with
      | c :: cs => if eqCI c 's' then some cs else none
      | [] => none
    let tail := fun (r : List Char) =>
      let p1 := dropWsCount r
      if p1.1 = 0 then none
      else
        match leadsCI "of".data p1.2 with
        | none => none
        | some r2 =>
          let p2 := dropWsCount r2
          if p2.1 = 0 then none
          else
            match leadsCI "traffic".data p2.2 with
            | none => none
            | some r3 => scanTrafficAlt r3
    match afterS with
    | some cs =>
      match tail cs with
      | some g => some g
      | none => tail r1
    | none => tail r1

/-- Core of the second traffic pattern: Traffic then the lazy gap and
alternation. -/
def trafficWordCore (t : List Char) : Option String :=
  match leadsCI "Traffic".data t with
  | none => none
  | some r => scanTrafficAlt r

/-- Core of the third traffic pattern: (IFR/VFR|VFR/IFR). -/
def slashTrafficCore (t : List Char) : Option String :=
  match leadsCI "IFR/VFR".data t with
  | some _ => some ⟨t.take 7⟩
  | none =>
    match leadsCI "VFR/IFR".data t with
    | some _ => some ⟨t.take 7⟩
    | none => none

/-- re.search for a core returning only the captured group. -/
def searchGroup (core : List Char → Option String) : List Char → Option String
  | [] => core []
  | c :: cs =>
    match core (c :: cs) with
    | some g => some g
    | none => searchGroup core cs

/-- Candidate value of BaseEAIPScraperPlaywright._extract_traffic_types;
none models the fall-through to Not specified. -/
def extract_traffic_types_core (text : String) : Option String :=
  let upper := pyUpper text
  let s0 := pyFind upper "AD 2.2"
  let si := if s0 = -1 then pyFind upper "AERODROME GEOGRAPHICAL" else s0
  if si = -1 then none
  else
    let e0 := pyFindFrom upper "AD 2.3" si.toNat
    let ei := if e0 = -1 then si + 2000 else e0
    let sec := (pySlice text si.toNat ei.toNat).data
    match searchGroup typesOfTrafficCore sec with
    | some g => some g
    | none =>
      match searchGroup trafficWordCore sec with
      | some g => some g
      | none => searchGroup slashTrafficCore sec

/-- Embedding of BaseEAIPScraperPlaywright._extract_traffic_types. -/
def extract_traffic_types (text : String) : String :=
  (extract_traffic_types_core text).getD "Not specified"

/-- Dash class of the airport-name pattern. -/
def dashChar (c : Char) : Bool := c = '—' || c = '–' || c = '-'

/-- Lookahead of the airport-name pattern: whitespace-star then the code
again, or the end of the input (dollar also matches before a final
newline). -/
def nameLookahead (cu rest : List Char) : Bool :=
  (leadsCI cu (dropWsAll rest)).isSome || rest = [] || rest = ['\n']

/-- Lazy dot-plus of the airport-name pattern: consume at least one
non-newline character, checking the lookahead after each. -/
def nameLazy (cu : List Char) (acc : List Char) : List Char → Option String
  | [] => none
  | c :: cs =>
    if c = '\n' then none
    else if nameLookahead cu cs then some ⟨(c :: acc).reverse⟩
    else nameLazy cu (c :: acc) cs

/-- Core of the airport-name pattern at a position: the code, optional
whitespace, one dash, optional whitespace, then the lazy group. -/
def nameCore (cu : List Char) (t : List Char) : Option String :=
  match leadsCI cu t with
  | none => none
  | some r1 =>
    match dropWsAll r1 with
    | d :: r3 => if dashChar d then nameLazy cu [] (dropWsAll r3) else none
    | [] => none

/-- re.search of the airport-name pattern. -/
def searchName (cu : List Char) : List Char → Option String
  | [] => none
  | c :: cs =>
    match nameCore cu (c :: cs) with
    | some g => some g
    | none => searchName cu cs

/-- Anchored test of whitespace-star AD whitespace-star 2 dot digit at a
position, for the trailing cut of the extracted name. -/
def namePatAt (l : List Char) : Bool :=
  match leadsCI "AD".data (dropWsAll l) with
  | none => false
  | some r2 =>
    match dropWsAll r2 with
    | '2' :: '.' :: d :: _ => d.isDigit
    | _ => false

/-- Cut of re.sub over the trailing AD 2.x pattern: keep the text before
the leftmost occurrence. -/
def cutScanNamePat : List Char → List Char
  | [] => []
  | c :: cs => if namePatAt (c :: cs) then [] else c :: cutScanNamePat cs

/-- Python str.rstrip over the two characters space and slash. -/
def rstripSpaceSlash (s : String) : String :=
  ⟨(s.data.reverse.dropWhile fun c => c = ' ' || c = '/').reverse⟩

/-- Embedding of BaseEAIPScraperPlaywright._extract_airport_name. -/
def extract_airport_name (text airport_code : String) : String :=
  let upper := pyUpper text
  let s0 := pyFind upper "AERODROME LOCATION INDICATOR AND NAME"
  let si := if s0 = -1 then pyFind upper "AD 2.1" else s0
  if si = -1 then pyUpper airport_code
  else
    let e0 := pyFindFrom upper "AD 2.2" si.toNat
    let ei := if e0 = -1 then si.toNat + 600 else e0.toNat
    let sec := pySlice text si.toNat ei
    let cu := pyUpper airport_code
    match searchName cu.data sec.data with
    | some g1 =>
      let name := pyStrip (collapseWs g1)
      let name : String := ⟨cutScanNamePat name.data⟩
      let name := pyStrip (rstripSpaceSlash name)
      cu ++ " — " ++ name
    | none => pyUpper airport_code

/-- Final record built by BaseEAIPScraperPlaywright.get_airport_info. -/
structure AirportRecord where
  airportCode : String
  airportName : String
  adAdministration : String
  adOperator : String
  customsAndImmigration : String
  ats : String
  operationalRemarks : String
  trafficTypes : String
deriving DecidableEq

/-- Embedding of the record construction of
BaseEAIPScraperPlaywright.get_airport_info, given the page text the
navigation produced. -/
def get_airport_info (airport_code text : String) : AirportRecord :=
  let hours := parse_operational_hours text
  { airportCode := pyUpper airport_code
    airportName := extract_airport_name text airport_code
    adAdministration := get_field_value hours "AD Administration"
    adOperator := get_field_value hours "AD Operator"
    customsAndImmigration := get_field_value hours "Customs and immigration"
    ats := get_field_value hours "ATS"
    operationalRemarks := extract_remarks text
    trafficTypes := extract_traffic_types text }

/-- Anchored test of the phrase AD, whitespace, Administration at the
head of a character list (case-insensitive). -/
def adminPhraseAt (l : List Char) : Bool :=
  match leadsCI "AD".data l with
  | none => false
  | some r1 =>
    let p := dropWsCount r1
    p.1 ≠ 0 && (leadsCI "Administration".data p.2).isSome

/-- Test that a text contains the phrase AD Administration anywhere
(AD, then whitespace, then Administration, case-insensitively). -/
def containsAdminPhrase : List Char → Bool
  | [] => false
  | c :: cs => adminPhraseAt (c :: cs) || containsAdminPhrase cs

/-- Value normalization of eurocontrol_generic_scraper on a matched
operational-hours value: replace every dot by a colon. -/
def eurocontrolNormalize (x : String) : String := pyReplaceChar '.' ':' x

/-- Value normalization of base_eaip_scraper on a matched raw value and
its captured group: H24 when the match contains H24 in upper case, else
the captured group. -/
def baseHoursKeyword (g0 g1 : String) : String :=
  if hasSub "H24".data (pyUpper g0).data then "H24" else g1

/-- Parsed URL pieces, modelling urllib.parse.urlparse for URLs of the
scheme://netloc/path shape the India scraper handles. -/
structure UrlParts where
  scheme : String
  netloc : String
  path : String
deriving DecidableEq

/-- Model of urlparse for scheme://netloc/path URLs: the whole input
becomes the path when no :// is present. -/
def urlParse (u : String) : UrlParts :=
  match findIdx "://".data u.data with
  | some i =>
    let rest := u.data.drop (i + 3)
    match findIdx ['/'] rest with
    | some j => ⟨⟨u.data.take i⟩, ⟨rest.take j⟩, ⟨rest.drop j⟩⟩
    | none => ⟨⟨u.data.take i⟩, ⟨rest⟩, ""⟩
  | none => ⟨"", "", u⟩

/-- Python path.rsplit with a slash and maxsplit 1, first part: the text
before the last slash, or the whole string without one. -/
def rsplitSlashHead (s : String) : String :=
  match lastIdx ['/'] s.data with
  | some i => ⟨s.data.take i⟩
  | none => s

/-- Python href.split over the hash sign, first part. -/
def hashHead (s : String) : String :=
  match findIdx ['#'] s.data with
  | some i => ⟨s.data.take i⟩
  | none => s

/-- Action the India airport-reach step performs against the page; a
plain click of the located anchor is included so the specified ladder can
be stated, though the source never performs one. -/
inductive NavAction where
  | anchorClick
  | jsClick
  | gotoUrl (u : String)
deriving DecidableEq

/-- Acceptance test of _open_airport after a navigation attempt: the
normalized airport code occurs in the upper-cased page text, or the text
is longer than 500 characters. -/
def acceptText (code t : String) : Bool :=
  hasSub code.data (pyUpper t).data || t.length > 500

/-- World of one _open_airport call: the outcome each page action would
produce.  jsResult and gotoText return the text _extract_sections_text
reads after the action, or an error when the action raises. -/
structure NavWorld where
  navFrame : Bool
  linkCount : Nat
  href : Option String
  jsResult : Except Unit String
  gotoText : String → Except Unit String
  currentAipUrl : Option String

/-- URL built in the constructed-URL fallback of _open_airport from the
located anchor href. -/
def hrefFallbackUrl (cu hrefClean : String) : String :=
  let p := urlParse cu
  p.scheme ++ "://" ++ p.netloc ++ rsplitSlashHead p.path ++ "/eAIP/" ++ hrefClean

/-- Direct URL conventions tried at the bottom of _open_airport. -/
def directPatterns (cu code : String) : List String :=
  let p := urlParse cu
  let basePath := if hasSub ['/'] p.path.data then rsplitSlashHead p.path else ""
  let pfx := if code.length ≥ 2 then pyTake code 2 else "IN"
  let base := p.scheme ++ "://" ++ p.netloc ++ basePath ++ "/eAIP/"
  [base ++ pfx ++ "-AD-2.1" ++ code ++ "-en-GB.html",
   base ++ pfx ++ "-AD-2-" ++ code ++ "-en-GB.html",
   base ++ "VE-AD-2." ++ code ++ "-en-GB.html"]

/-- Loop over the direct URL patterns at the bottom of _open_airport:
navigate, accept or continue; raise after the last. -/
def patternLoop (w : NavWorld) (code : String) (acc : List NavAction) :
    List String → List NavAction × Except String Unit
  | [] => (acc, Except.error ("Failed to navigate to airport " ++ code))
  | u :: us =>
    match w.gotoText u with
    | Except.ok t =>
      if acceptText code t then (acc ++ [NavAction.gotoUrl u], Except.ok ())
      else patternLoop w code (acc ++ [NavAction.gotoUrl u]) us
    | Except.error _ => patternLoop w code (acc ++ [NavAction.gotoUrl u]) us

/-- Embedding of IndiaAIPScraperPlaywright._open_airport: the navigation
frame phase (scripted click, then the href-constructed URL when the click
raised), then the direct URL conventions, then the raise.  Returns the
actions attempted and the outcome. -/
def open_airport (w : NavWorld) (airport_code : String) :
    List NavAction × Except String Unit :=
  let code := pyStrip (pyUpper airport_code)
  let phase1 : List NavAction × Bool :=
    if w.navFrame then
      if w.linkCount > 0 then
        match w.jsResult with
        | Except.ok t => ([NavAction.jsClick], acceptText code t)
        | Except.error _ =>
          match w.href with
          | some h =>
            if pyEndsWith h ".html" then
              match w.currentAipUrl with
              | some cu =>
                let url := hrefFallbackUrl cu (pyReplaceChar ' ' '-' (hashHead h))
                match w.gotoText url with
                | Except.ok t => ([NavAction.jsClick, NavAction.gotoUrl url], acceptText code t)
                | Except.error _ => ([NavAction.jsClick, NavAction.gotoUrl url], false)
              | none => ([NavAction.jsClick], false)
            else ([NavAction.jsClick], false)
          | none => ([NavAction.jsClick], false)
      else ([], false)
    else ([], false)
  if phase1.2 then (phase1.1, Except.ok ())
  else
    match w.currentAipUrl with
    | none => (phase1.1, Except.error ("Failed to navigate to airport " ++ code))
    | some cu => patternLoop w code phase1.1 (directPatterns cu code)

/-- Ordered fallback ladder _open_airport actually runs, as data: each
step is the action together with the outcome the world assigns it.  The
href-constructed URL step exists only when the scripted click raised. -/
def attemptLadder (w : NavWorld) (code : String) : List (NavAction × Except Unit String) :=
  (if w.navFrame ∧ w.linkCount > 0 then
    (NavAction.jsClick, w.jsResult) ::
    (match w.jsResult with
     | Except.error _ =>
       match w.href with
       | some h =>
         if pyEndsWith h ".html" then
           match w.currentAipUrl with
           | some cu =>
             let url := hrefFallbackUrl cu (pyReplaceChar ' ' '-' (hashHead h))
             [(NavAction.gotoUrl url, w.gotoText url)]
           | none => []
         else []
       | none => []
     | Except.ok _ => [])
   else []) ++
  (match w.currentAipUrl with
   | some cu => (directPatterns cu code).map fun u => (NavAction.gotoUrl u, w.gotoText u)
   | none => [])

/-- Sequential evaluation of a fallback ladder: the first step whose
outcome text is accepted wins; an exhausted ladder is the navigation
failure. -/
def runLadder (code : String) (acc : List NavAction) :
    List (NavAction × Except Unit String) → List NavAction × Except String Unit
  | [] => (acc, Except.error ("Failed to navigate to airport " ++ code))
  | (a, r) :: rest =>
    match r with
    | Except.ok t =>
      if acceptText code t then (acc ++ [a], Except.ok ())
      else runLadder code (acc ++ [a]) rest
    | Except.error _ => runLadder code (acc ++ [a]) rest

/-- World of one _navigate_to_current_aip call: the primary locator
(outer option: element found; inner option: its href attribute), the
fallback locator, and whether navigation to a URL raises. -/
structure AipWorld where
  newLink : Option (Option String)
  fallbackLink : Option (Option String)
  gotoFails : String → Bool

/-- Heuristic condition of _navigate_to_current_aip on a candidate href:
nonempty, contains eaip in lower case and contains index-en-GB. -/
def aipHrefOK (h : String) : Bool :=
  !(h = "") && hasSub "eaip".data (pyLower h).data && hasSub "index-en-GB".data h.data

/-- Absolute URL resolution of _navigate_to_current_aip: keep an http
href, else join it to the scheme and netloc of the base URL (model of
urljoin for the shapes in play). -/
def absolutize (baseUrl h : String) : String :=
  if pyStartsWith h "http" then h
  else
    let p := urlParse baseUrl
    p.scheme ++ "://" ++ p.netloc ++ (if pyStartsWith h "/" then h else "/" ++ h)

/-- Embedding of IndiaAIPScraperPlaywright._navigate_to_current_aip:
the primary locator, the fallback locator, then the raise; a navigation
that raises propagates as the error of the whole step.  Returns the
resolved current AIP URL. -/
def aip_fallback (w : AipWorld) (baseUrl : String) : Except String String :=
  match w.fallbackLink with
  | some (some h) =>
    if aipHrefOK h then
      let u := absolutize baseUrl h
      if w.gotoFails u then Except.error "goto failed" else Except.ok u
    else Except.error "Could not find current AIP link"
  | some none => Except.error "Could not find current AIP link"
  | none => Except.error "Could not find current AIP link"

def navigate_to_current_aip (w : AipWorld) (baseUrl : String) : Except String String :=
  match w.newLink with
  | some (some h) =>
    if aipHrefOK h then
      let u := absolutize baseUrl h
      if w.gotoFails u then Except.error "goto failed" else Except.ok u
    else aip_fallback w baseUrl
  | some none => aip_fallback w baseUrl
  | none => aip_fallback w baseUrl

/-- Test that no current-issue anchor of the landing page satisfies any
heuristic of _navigate_to_current_aip. -/
def noMatchingAnchor (w : AipWorld) : Bool :=
  (match w.newLink with
   | some (some h) => !aipHrefOK h
   | some none => true
   | none => true) &&
  (match w.fallbackLink with
   | some (some h) => !aipHrefOK h
   | some none => true
   | none => true)

/-! Helper lemmas. -/

theorem pyTake_one_of_two (s : String) : pyTake s 1 = pyTake (pyTake s 2) 1 := by
  simp [pyTake, List.take_take]

theorem find?_key_eq {l : List (String × String)} {k : String} {kv : String × String}
    (h : l.find? (fun x => x.1 = k) = some kv) : kv ∈ l ∧ kv.1 = k := by
  refine ⟨List.mem_of_find?_eq_some h, ?_⟩
  have h2 := List.find?_some h
  simpa using h2

theorem pyDict_mem {tbl : List (String × String)} {k c : String}
    (h : pyDict tbl k = some c) : ∃ kv ∈ tbl, kv.1 = k ∧ kv.2 = c := by
  unfold pyDict at h
  cases hf : tbl.reverse.find? (fun x => x.1 = k) with
  | none => rw [hf] at h; simp at h
  | some kv =>
    rw [hf] at h
    obtain ⟨hm, hk⟩ := find?_key_eq hf
    exact ⟨kv, List.mem_reverse.mp hm, hk, by simpa using h⟩

set_option maxRecDepth 4096 in
theorem std_keys_not_three : ∀ kv ∈ STANDARD_PREFIXES, kv.1.length ≠ 3 ∧ kv.1.length ≠ 0 := by
  decide

theorem pyDict_std_len3 {u : String} (h3 : u.length = 3) :
    pyDict STANDARD_PREFIXES u = none := by
  cases hd : pyDict STANDARD_PREFIXES u with
  | none => rfl
  | some c =>
    obtain ⟨kv, hm, hk, _⟩ := pyDict_mem hd
    exact absurd (hk ▸ h3) (std_keys_not_three kv hm).1

theorem pyDict_std_len0 {u : String} (h0 : u.length = 0) :
    pyDict STANDARD_PREFIXES u = none := by
  cases hd : pyDict STANDARD_PREFIXES u with
  | none => rfl
  | some c =>
    obtain ⟨kv, hm, hk, _⟩ := pyDict_mem hd
    exact absurd (hk ▸ h0) (std_keys_not_three kv hm).2

theorem pyTake_length_of_le {s : String} {n : Nat} (h : n ≤ s.length) :
    (pyTake s n).length = n := by
  have hd : s.length = s.data.length := rfl
  show (s.data.take n).length = n
  rw [List.length_take]
  omega

/-- Resolution through get_country_from_code when the length-2 prefix of
the normalized code is a key of the table. -/
theorem resolve_len2 (data : List CountryEntry) (s : String)
    (h3 : 3 ≤ (pyStrip (pyUpper s)).length) (p c : String)
    (hp : pyTake (pyStrip (pyUpper s)) 2 = p)
    (hc : pyDict STANDARD_PREFIXES p = some c) :
    ∃ r, get_country_from_code data s = some r ∧ r.code = p ∧
      pyUpper r.country = pyUpper c := by
  unfold get_country_from_code
  have hne : ¬((pyStrip (pyUpper s)) = "" ∨ (pyStrip (pyUpper s)).length < 3) := by
    rintro (h | h)
    · rw [h] at h3; simp [String.length] at h3
    · omega
  rw [if_neg hne]
  unfold prefixLenLoop
  have hlen3 : (pyTake (pyStrip (pyUpper s)) 3).length = 3 :=
    pyTake_length_of_le (by omega)
  rw [if_pos (by omega : (pyStrip (pyUpper s)).length ≥ 3)]
  rw [pyDict_std_len3 hlen3]
  unfold prefixLenLoop
  rw [if_pos (by omega : (pyStrip (pyUpper s)).length ≥ 2)]
  rw [hp, hc]
  refine ⟨countryResult data c p, rfl, ?_, ?_⟩
  · unfold countryResult
    cases data.find? (fun cd => pyUpper cd.country = pyUpper c) <;> rfl
  · unfold countryResult
    cases hcd : data.find? (fun cd => pyUpper cd.country = pyUpper c) with
    | none => rfl
    | some cd =>
      have := List.find?_some hcd
      exact of_decide_eq_true this

/-! Claim C7. -/

/-- C7: for every input string whose normalized (uppercased, stripped)
form is shorter than 3 characters, country_detector.get_country_from_code
returns None, whatever the loaded countries data. -/
theorem C7_short_code_none (data : List CountryEntry) (s : String)
    (h : (pyStrip (pyUpper s)).length < 3) :
    get_country_from_code data s = none := by
  unfold get_country_from_code
  rw [if_pos (Or.inr h)]

theorem C7_short_code_none_witness :
    (pyStrip (pyUpper "lz ")).length < 3 ∧ get_country_from_code [] "lz " = none :=
  ⟨by decide, C7_short_code_none [] "lz " (by decide)⟩

/-! Claim C8. -/

/-- C8: the per-field value canonicalization applied to matched raw
values is idempotent: the dot-to-colon replacement of the eurocontrol
generic parser, and the H24-keyword mapping of the base parser, both
return an already-normalized value unchanged. -/
theorem C8_normalize_idempotent :
    (∀ x : String, eurocontrolNormalize (eurocontrolNormalize x) = eurocontrolNormalize x) ∧
    (∀ x : String,
      baseHoursKeyword (baseHoursKeyword x x) (baseHoursKeyword x x) = baseHoursKeyword x x) := by
  constructor
  · intro x
    unfold eurocontrolNormalize pyReplaceChar
    simp only [List.map_map]
    refine congrArg String.mk (List.map_congr_left ?_)
    intro c _
    by_cases hc : c = '.' <;> simp [hc, Function.comp]
  · intro x
    unfold baseHoursKeyword
    by_cases h : hasSub "H24".data (pyUpper x).data = true
    · simp only [if_pos h]
      decide
    · simp only [if_neg h]

/-! Claim C10. -/

theorem regDict_mem {k : String} {e : ScraperEntry} (h : regDict k = some e) :
    e ∈ AIRPORT_CODE_PREFIXES ∧ e.pfx = k := by
  unfold regDict at h
  refine ⟨List.mem_reverse.mp (List.mem_of_find?_eq_some h), ?_⟩
  have h2 := List.find?_some h
  simpa using h2

set_option maxRecDepth 4096 in
theorem reg_keys_len2 : ∀ e ∈ AIRPORT_CODE_PREFIXES, e.pfx.length ≤ 2 := by
  decide

/-- C10: the registry country resolution depends only on the first two
characters of the normalized input, applies no minimum-length check (the
one-character input K resolves to USA), and every hit comes from a table
key of length at most 2 that is the length-2 or length-1 normalized
prefix, so a 3-letter prefix can never match. -/
theorem C10_registry_two_char :
    (∀ s₁ s₂ : String,
      pyTake (pyStrip (pyUpper s₁)) 2 = pyTake (pyStrip (pyUpper s₂)) 2 →
      reg_get_country_from_code s₁ = reg_get_country_from_code s₂) ∧
    reg_get_country_from_code "K" = some "USA" ∧
    (pyStrip (pyUpper "K")).length = 1 ∧
    (∀ e ∈ AIRPORT_CODE_PREFIXES, e.pfx.length ≤ 2) ∧
    (∀ s c, reg_get_country_from_code s = some c →
      ∃ e ∈ AIRPORT_CODE_PREFIXES,
        (e.pfx = pyTake (pyStrip (pyUpper s)) 2 ∨ e.pfx = pyTake (pyStrip (pyUpper s)) 1) ∧
        c = e.country ∧ e.pfx.length ≤ 2) := by
  refine ⟨?_, by decide, by decide, reg_keys_len2, ?_⟩
  · intro s₁ s₂ h
    simp only [reg_get_country_from_code, regLenLoop]
    rw [pyTake_one_of_two (pyStrip (pyUpper s₁)), pyTake_one_of_two (pyStrip (pyUpper s₂)), h]
  · intro s c h
    simp only [reg_get_country_from_code, regLenLoop] at h
    cases h2 : regDict (pyTake (pyStrip (pyUpper s)) 2) with
    | some e =>
      rw [h2] at h
      simp at h
      obtain ⟨hm, hk⟩ := regDict_mem h2
      exact ⟨e, hm, Or.inl hk, h.symm, reg_keys_len2 e hm⟩
    | none =>
      rw [h2] at h
      simp only [] at h
      cases h1 : regDict (pyTake (pyStrip (pyUpper s)) 1) with
      | some e =>
        rw [h1] at h
        simp at h
        obtain ⟨hm, hk⟩ := regDict_mem h1
        exact ⟨e, hm, Or.inr hk, h.symm, reg_keys_len2 e hm⟩
      | none => rw [h1] at h; simp at h

theorem C10_registry_two_char_witness :
    pyTake (pyStrip (pyUpper "KJFK")) 2 = pyTake (pyStrip (pyUpper "kj")) 2 ∧
    reg_get_country_from_code "KJFK" = reg_get_country_from_code "kj" ∧
    (∃ e ∈ AIRPORT_CODE_PREFIXES,
      (e.pfx = pyTake (pyStrip (pyUpper "LFPG")) 2 ∨ e.pfx = pyTake (pyStrip (pyUpper "LFPG")) 1) ∧
      "FRANCE" = e.country ∧ e.pfx.length ≤ 2) :=
  ⟨by decide, C10_registry_two_char.1 "KJFK" "kj" (by decide),
   C10_registry_two_char.2.2.2.2 "LFPG" "FRANCE" (by decide)⟩

/-! Claim C4. -/

/-- C4: requesting a scraper for a country that is neither cached nor
loadable falls back to the USA strategy without raising (the cached USA
instance, or a freshly loaded one that is then cached), and the error is
raised only when the USA scraper is also unavailable. -/
theorem C4_default_fallback {α : Type} :
    (∀ (load : String → Option α) cache country (s : α),
      cacheGet cache country = none → load country = none →
      cacheGet cache "USA" = some s →
      get_scraper load cache country = Except.ok (s, cache)) ∧
    (∀ (load : String → Option α) cache country (s : α),
      cacheGet cache country = none → load country = none →
      cacheGet cache "USA" = none → load "USA" = some s →
      get_scraper load cache country = Except.ok (s, cacheSet cache "USA" s)) ∧
    (∀ (load : String → Option α) cache country,
      cacheGet cache country = none → load country = none →
      cacheGet cache "USA" = none → load "USA" = none →
      get_scraper load cache country = Except.error "Scraper not available for USA") := by
  refine ⟨?_, ?_, ?_⟩
  · intro load cache country s h1 h2 h3
    simp only [get_scraper, h1, h2, h3]
  · intro load cache country s h1 h2 h3 h4
    simp only [get_scraper, h1, h2, h3, h4, cacheSet]
    simp [cacheGet, List.find?]
  · intro load cache country h1 h2 h3 h4
    simp only [get_scraper, h1, h2, h3, h4]
    exact congrArg Except.error (by decide)

theorem C4_default_fallback_witness :
    get_scraper (fun c => if c = "USA" then some 7 else none) ([] : List (String × Nat))
      "ATLANTIS" = Except.ok (7, cacheSet [] "USA" 7) :=
  C4_default_fallback.2.1 (fun c => if c = "USA" then some 7 else none) [] "ATLANTIS" 7
    rfl rfl rfl rfl

/-! Claim C2. -/

/-- C2 counterexample: the concrete code LZBB is matched by the table
keys LZBB (length 4, mapped to Bulgaria) and LZ (length 2, mapped to
Slovakia), two table prefixes of different lengths; the resolver returns
Slovakia, the country of the shorter prefix, because the loop never tries
prefixes longer than 3 characters. -/
theorem C2_longest_match_counterexample :
    pyDict STANDARD_PREFIXES "LZBB" = some "Bulgaria" ∧
    pyDict STANDARD_PREFIXES "LZ" = some "Slovakia" ∧
    pyTake (pyStrip (pyUpper "LZBB")) 4 = "LZBB" ∧
    pyTake (pyStrip (pyUpper "LZBB")) 2 = "LZ" ∧
    (get_country_from_code [] "LZBB").map CountryInfo.country = some "Slovakia" ∧
    ¬((get_country_from_code [] "LZBB").map CountryInfo.country = some "Bulgaria") := by
  refine ⟨by decide, by decide, by decide, by decide, by decide, by decide⟩

/-- C2 amended: get_country_from_code tries the prefixes of length 3,
then 2, then 1 and returns the first table hit; hence for every code of
normalized length at least 3 matched by two table prefixes of different
lengths, both at most 3 (the lengths the loop tries), the country of the
longer prefix is returned: such a longer prefix must have length exactly
2 since the table has no key of length 3, and codes starting ES resolve
to Sweden via the prefix ES, not Norway via E. -/
theorem C2_longest_match_amended :
    (∀ (data : List CountryEntry) (s p q cp cq : String),
      3 ≤ (pyStrip (pyUpper s)).length →
      p.length ≤ 3 → q.length < p.length →
      pyTake (pyStrip (pyUpper s)) p.length = p →
      pyTake (pyStrip (pyUpper s)) q.length = q →
      pyDict STANDARD_PREFIXES p = some cp →
      pyDict STANDARD_PREFIXES q = some cq →
      ∃ r, get_country_from_code data s = some r ∧ r.code = p ∧
        pyUpper r.country = pyUpper cp) ∧
    (get_country_from_code [] "ESSA").map CountryInfo.country = some "Sweden" := by
  constructor
  · intro data s p q cp cq h3 hp3 hqp hp hq hcp hcq
    have hplen : p.length = 2 := by
      rcases Nat.lt_or_ge p.length 2 with hlt | hge
      · exfalso
        have hq0 : q.length = 0 := by omega
        have : q = "" := by
          cases q with
          | mk d =>
            have : d.length = 0 := hq0
            cases d with
            | nil => rfl
            | cons a as => simp at this
        rw [this] at hcq
        rw [pyDict_std_len0 (by decide : ("" : String).length = 0)] at hcq
        exact Option.noConfusion hcq
      · rcases Nat.lt_or_ge p.length 3 with hlt3 | hge3
        · omega
        · exfalso
          have hp3' : p.length = 3 := by omega
          rw [pyDict_std_len3 hp3'] at hcp
          exact Option.noConfusion hcp
    rw [hplen] at hp
    exact resolve_len2 data s h3 p cp hp hcp
  · decide

theorem C2_longest_match_amended_witness :
    ∃ r, get_country_from_code [] "ESSA" = some r ∧ r.code = "ES" ∧
      pyUpper r.country = pyUpper "Sweden" :=
  C2_longest_match_amended.1 [] "ESSA" "ES" "E" "Sweden" "Norway"
    (by decide) (by decide) (by decide) (by decide) (by decide) (by decide) (by decide)

/-! Claim C9. -/

/-- C9: a prefix key repeated in the STANDARD_PREFIXES literal keeps its
later value (Python dict semantics): LZ maps to Slovakia, not Bulgaria,
and UT maps to Turkmenistan, not Tajikistan; hence every code of
normalized length at least 3 beginning LZ resolves to Slovakia and every
such code beginning UT resolves to Turkmenistan, whatever the loaded
countries data (the returned name agrees with the table entry up to the
case stored in the data). -/
theorem C9_duplicate_key_overwrite :
    pyDict STANDARD_PREFIXES "LZ" = some "Slovakia" ∧
    pyDict STANDARD_PREFIXES "UT" = some "Turkmenistan" ∧
    (∀ (data : List CountryEntry) (s : String),
      3 ≤ (pyStrip (pyUpper s)).length →
      pyTake (pyStrip (pyUpper s)) 2 = "LZ" →
      ∃ r, get_country_from_code data s = some r ∧ r.code = "LZ" ∧
        pyUpper r.country = "SLOVAKIA") ∧
    (∀ (data : List CountryEntry) (s : String),
      3 ≤ (pyStrip (pyUpper s)).length →
      pyTake (pyStrip (pyUpper s)) 2 = "UT" →
      ∃ r, get_country_from_code data s = some r ∧ r.code = "UT" ∧
        pyUpper r.country = "TURKMENISTAN") ∧
    get_country_from_code [] "LZIB" =
      some ⟨"Slovakia", "UNKNOWN", "LZ", none, none⟩ ∧
    get_country_from_code [] "UTAA" =
      some ⟨"Turkmenistan", "UNKNOWN", "UT", none, none⟩ := by
  refine ⟨by decide, by decide, ?_, ?_, by decide, by decide⟩
  · intro data s h3 hp
    obtain ⟨r, hr, hc, hn⟩ := resolve_len2 data s h3 "LZ" "Slovakia" hp (by decide)
    exact ⟨r, hr, hc, by rw [hn]; decide⟩
  · intro data s h3 hp
    obtain ⟨r, hr, hc, hn⟩ := resolve_len2 data s h3 "UT" "Turkmenistan" hp (by decide)
    exact ⟨r, hr, hc, by rw [hn]; decide⟩

theorem C9_duplicate_key_overwrite_witness :
    (∃ r, get_country_from_code [⟨"slovakia", "EUROPE", "Web", "x"⟩] "lzib" = some r ∧
      r.code = "LZ" ∧ pyUpper r.country = "SLOVAKIA") ∧
    (∃ r, get_country_from_code [] "UTAA" = some r ∧ r.code = "UT" ∧
      pyUpper r.country = "TURKMENISTAN") :=
  ⟨C9_duplicate_key_overwrite.2.2.1 [⟨"slovakia", "EUROPE", "Web", "x"⟩] "lzib"
      (by decide) (by decide),
   C9_duplicate_key_overwrite.2.2.2.1 [] "UTAA" (by decide) (by decide)⟩

/-! Machinery about substring search, for claims C6 and C1. -/

theorem leadsWith_take {nee l : List Char} {m : Nat}
    (h : leadsWith nee (l.take m) = true) :
    leadsWith nee l = true ∧ nee.length ≤ m := by
  induction nee generalizing l m with
  | nil => exact ⟨rfl, Nat.zero_le m⟩
  | cons p ps ih =>
    cases m with
    | zero => simp [List.take_zero, leadsWith] at h
    | succ m =>
      cases l with
      | nil => simp [leadsWith] at h
      | cons c cs =>
        simp only [List.take_succ_cons, leadsWith, Bool.and_eq_true] at h ⊢
        obtain ⟨hpc, htail⟩ := h
        obtain ⟨h1, h2⟩ := ih htail
        exact ⟨⟨hpc, h1⟩, by simpa [List.length_cons] using Nat.succ_le_succ h2⟩

theorem hasSub_iff_exists {nee l : List Char} :
    hasSub nee l = true ↔ ∃ i, leadsWith nee (l.drop i) = true := by
  induction l with
  | nil =>
    simp only [hasSub, List.drop_nil]
    exact ⟨fun h => ⟨0, h⟩, fun ⟨_, h⟩ => h⟩
  | cons c cs ih =>
    simp only [hasSub, Bool.or_eq_true]
    constructor
    · rintro (h | h)
      · exact ⟨0, h⟩
      · obtain ⟨i, hi⟩ := ih.mp h
        exact ⟨i + 1, hi⟩
    · rintro ⟨i, hi⟩
      cases i with
      | zero => exact Or.inl hi
      | succ i => exact Or.inr (ih.mpr ⟨i, hi⟩)

theorem findIdx_none {nee l : List Char} (h : findIdx nee l = none) :
    ∀ i, leadsWith nee (l.drop i) = false := by
  induction l with
  | nil =>
    intro i
    simp only [findIdx] at h
    split at h
    · exact absurd h (by simp)
    · simpa [List.drop_nil] using Bool.eq_false_iff.mpr (by simp_all)
  | cons c cs ih =>
    intro i
    simp only [findIdx] at h
    split at h
    · exact absurd h (by simp)
    · have htail : findIdx nee cs = none := by
        cases hf : findIdx nee cs with
        | none => rfl
        | some n => rw [hf] at h; simp at h
      cases i with
      | zero => simp_all
      | succ i => simpa [List.drop_succ_cons] using ih htail i

theorem findIdx_some {nee l : List Char} {e : Nat} (h : findIdx nee l = some e) :
    leadsWith nee (l.drop e) = true ∧ ∀ j, j < e → leadsWith nee (l.drop j) = false := by
  induction l generalizing e with
  | nil =>
    simp only [findIdx] at h
    split at h
    · obtain rfl : e = 0 := by simp_all
      refine ⟨by simp_all, by omega⟩
    · exact absurd h (by simp)
  | cons c cs ih =>
    simp only [findIdx] at h
    split at h
    · obtain rfl : e = 0 := by simp_all
      refine ⟨by simp_all, by omega⟩
    · rename_i hlead
      obtain ⟨n, hn, rfl⟩ : ∃ n, findIdx nee cs = some n ∧ e = n + 1 := by
        cases hf : findIdx nee cs with
        | none => rw [hf] at h; simp at h
        | some n => rw [hf] at h; simp at h; exact ⟨n, rfl, h.symm⟩
      obtain ⟨h1, h2⟩ := ih hn
      refine ⟨by simpa [List.drop_succ_cons] using h1, ?_⟩
      intro j hj
      cases j with
      | zero => simpa using Bool.eq_false_iff.mpr hlead
      | succ j => simpa [List.drop_succ_cons] using h2 j (by omega)

theorem leadsWith_slice_drop {nee l : List Char} (hne : nee ≠ []) {a b i : Nat}
    (h : leadsWith nee ((pySliceL l a b).drop i) = true) :
    leadsWith nee (l.drop (a + i)) = true ∧ a + i < b := by
  unfold pySliceL at h
  rw [List.drop_take, List.drop_drop] at h
  obtain ⟨h1, h2⟩ := leadsWith_take h
  have hlen : 1 ≤ nee.length := by
    cases nee with
    | nil => exact absurd rfl hne
    | cons x xs => simp
  exact ⟨h1, by omega⟩

theorem hasSub_slice_mono {nee l : List Char} (hne : nee ≠ []) {a b : Nat}
    (h : hasSub nee (pySliceL l a b) = true) : hasSub nee l = true := by
  obtain ⟨i, hi⟩ := hasSub_iff_exists.mp h
  exact hasSub_iff_exists.mpr ⟨a + i, (leadsWith_slice_drop hne hi).1⟩

theorem slice_no_needle {l nee : List Char} (hne : nee ≠ []) {a e : Nat}
    (he : findIdx nee l = some e) : hasSub nee (pySliceL l a e) = false := by
  by_contra hc
  have hc' : hasSub nee (pySliceL l a e) = true := by
    cases hv : hasSub nee (pySliceL l a e)
    · exact absurd hv hc
    · rfl
  obtain ⟨i, hi⟩ := hasSub_iff_exists.mp hc'
  obtain ⟨h1, h2⟩ := leadsWith_slice_drop hne hi
  have := (findIdx_some he).2 (a + i) h2
  rw [this] at h1
  exact Bool.noConfusion h1

theorem no_needle_of_findIdx_none {l nee : List Char} (h : findIdx nee l = none) :
    hasSub nee l = false := by
  by_contra hc
  have hc' : hasSub nee l = true := by
    cases hv : hasSub nee l
    · exact absurd hv hc
    · rfl
  obtain ⟨i, hi⟩ := hasSub_iff_exists.mp hc'
  rw [findIdx_none h i] at hi
  exact Bool.noConfusion hi

theorem pyUpper_slice (text : String) (a b : Nat) :
    (pyUpper (pySlice text a b)).data = pySliceL (pyUpper text).data a b := by
  simp [pyUpper, pySlice, pySliceL, List.map_take, List.map_drop]

theorem boundedSegment_no_ad24 (text : String) (s1 : Int) (hs : s1 ≠ -1) :
    hasSub "AD 2.4".data (pyUpper (boundedSegment text s1)).data = false := by
  unfold boundedSegment
  cases hf : findIdx "AD 2.4".data (pyUpper text).data with
  | none =>
    have he : pyFind (pyUpper text) "AD 2.4" = -1 := by simp [pyFind, hf]
    rw [if_pos hs, he]
    rw [if_neg (by simp)]
    exact no_needle_of_findIdx_none hf
  | some e =>
    have he : pyFind (pyUpper text) "AD 2.4" = (e : Int) := by simp [pyFind, hf]
    rw [if_pos hs, he]
    have hne : (e : Int) ≠ -1 := by omega
    rw [if_pos ⟨hs, hne⟩]
    have ht : ((e : Int)).toNat = e := rfl
    rw [ht, pyUpper_slice]
    exact slice_no_needle (by decide) hf

theorem hasSub_slice_false {nee l : List Char} (hne : nee ≠ []) {a b : Nat}
    (h : hasSub nee l = false) : hasSub nee (pySliceL l a b) = false := by
  cases hv : hasSub nee (pySliceL l a b)
  · rfl
  · rw [hasSub_slice_mono hne hv] at h
    exact Bool.noConfusion h

theorem boundedSegment_sub_mono (text : String) (s1 : Int)
    (h : hasSub "AD 2.4".data (pyUpper text).data = false) :
    hasSub "AD 2.4".data (pyUpper (boundedSegment text s1)).data = false := by
  unfold boundedSegment
  dsimp only
  by_cases hc : s1 ≠ -1 ∧ (if s1 ≠ -1 then pyFind (pyUpper text) "AD 2.4" else -1) ≠ -1
  · rw [if_pos hc, pyUpper_slice]
    exact hasSub_slice_false (by decide) h
  · rw [if_neg hc]
    exact h

/-! Claim C6. -/

/-- C6: the bounded operational-hours segment never contains the header
of the next recognized section: whenever the section header is found (so
the AD 2.4 end bound is consulted) the segment excludes AD 2.4, and on
every input whose text lacks AD 2.4 the returned segment lacks it too;
both for the base parser and for the Estonia parser segment bounding. -/
theorem C6_segment_excludes_next_header (text : String) :
    ((pyFind (pyUpper text) "AD 2.3 OPERATIONAL HOURS" ≠ -1 ∨
      pyFind (pyUpper text) "OPERATIONAL HOURS" ≠ -1) →
      hasSub "AD 2.4".data (pyUpper (op_hours_segment text)).data = false) ∧
    (hasSub "AD 2.4".data (pyUpper text).data = false →
      hasSub "AD 2.4".data (pyUpper (op_hours_segment text)).data = false) ∧
    ((pyFind (pyUpper text) "AD 2.3 OPERATIONAL HOURS" ≠ -1 ∨
      pyFind (pyUpper text) "AD 2.2 OPERATIONAL HOURS" ≠ -1 ∨
      pyFind (pyUpper text) "OPERATIONAL HOURS" ≠ -1) →
      hasSub "AD 2.4".data (pyUpper (estonia_op_segment text)).data = false) ∧
    (hasSub "AD 2.4".data (pyUpper text).data = false →
      hasSub "AD 2.4".data (pyUpper (estonia_op_segment text)).data = false) := by
  refine ⟨?_, ?_, ?_, ?_⟩
  · intro h
    unfold op_hours_segment
    dsimp only
    apply boundedSegment_no_ad24
    by_cases h0 : pyFind (pyUpper text) "AD 2.3 OPERATIONAL HOURS" = -1
    · rw [if_pos h0]
      rcases h with h | h
      · exact absurd h0 h
      · exact h
    · rw [if_neg h0]
      exact h0
  · intro h
    unfold op_hours_segment
    dsimp only
    exact boundedSegment_sub_mono text _ h
  · intro h
    unfold estonia_op_segment
    dsimp only
    apply boundedSegment_no_ad24
    by_cases h0 : pyFind (pyUpper text) "AD 2.3 OPERATIONAL HOURS" = -1
    · rw [if_pos h0]
      by_cases h1 : pyFind (pyUpper text) "AD 2.2 OPERATIONAL HOURS" = -1
      · rw [if_pos h1]
        rcases h with h | h | h
        · exact absurd h0 h
        · exact absurd h1 h
        · exact h
      · rw [if_neg h1]
        exact h1
    · rw [if_neg h0]
      rw [if_neg h0]
      exact h0
  · intro h
    unfold estonia_op_segment
    dsimp only
    exact boundedSegment_sub_mono text _ h

theorem C6_segment_excludes_next_header_witness :
    (pyFind (pyUpper "AD 2.3 OPERATIONAL HOURS x AD 2.4 y") "AD 2.3 OPERATIONAL HOURS" ≠ -1 ∨
      pyFind (pyUpper "AD 2.3 OPERATIONAL HOURS x AD 2.4 y") "OPERATIONAL HOURS" ≠ -1) ∧
    hasSub "AD 2.4".data
      (pyUpper (op_hours_segment "AD 2.3 OPERATIONAL HOURS x AD 2.4 y")).data = false ∧
    hasSub "AD 2.4".data
      (pyUpper (estonia_op_segment "AD 2.2 OPERATIONAL HOURS x AD 2.4 y")).data = false ∧
    hasSub "AD 2.4".data (pyUpper (op_hours_segment "no headers here")).data = false :=
  ⟨Or.inl (by decide),
   (C6_segment_excludes_next_header "AD 2.3 OPERATIONAL HOURS x AD 2.4 y").1 (Or.inl (by decide)),
   (C6_segment_excludes_next_header "AD 2.2 OPERATIONAL HOURS x AD 2.4 y").2.2.1
     (Or.inr (Or.inl (by decide))),
   (C6_segment_excludes_next_header "no headers here").2.1 (by decide)⟩

/-! Claim C5. -/

/-- Fixture of end-to-end scenario 2: the operational-hours section with
an AD Operator weekday range, customs and ATS marked H24, bounded by the
AD 2.4 header. -/
def scenario2Fixture : String :=
  "AD 2.3 OPERATIONAL HOURS\nAD Operator MON-FRI: 0700-1900\nCustoms and immigration H24\nATS H24\nAD 2.4"

set_option maxRecDepth 100000 in
/-- C5 counterexample: on the scenario fixture the generic eAIP parser
yields adOperator H24, not the canonicalized range 07:00-19:00 the claim
states: the AD-Operator pattern captures only the keywords H24 or NIL,
and its lazy gap under re.DOTALL runs to the first such keyword, the H24
of the customs line. -/
theorem C5_scenario2_counterexample :
    (get_airport_info "EVRA" scenario2Fixture).adOperator = "H24" ∧
    ¬((get_airport_info "EVRA" scenario2Fixture).adOperator = "07:00-19:00") := by
  refine ⟨by decide, by decide⟩

set_option maxRecDepth 100000 in
/-- C5 amended: on the scenario fixture the extraction yields adOperator
H24 (the HHMM-HHMM range is not captured by this parser), together with
customsAndImmigration H24 and ats H24 as the claim states. -/
theorem C5_scenario2_amended :
    (get_airport_info "EVRA" scenario2Fixture).adOperator = "H24" ∧
    (get_airport_info "EVRA" scenario2Fixture).customsAndImmigration = "H24" ∧
    (get_airport_info "EVRA" scenario2Fixture).ats = "H24" := by
  refine ⟨by decide, by decide, by decide⟩

/-! Machinery for claim C1: a match of the AD-Administration pattern in
a slice of the text forces the AD Administration phrase to occur in the
whole text. -/

theorem leadsCI_append {p u r w : List Char} (h : leadsCI p u = some r) :
    leadsCI p (u ++ w) = some (r ++ w) := by
  induction p generalizing u with
  | nil => simp [leadsCI] at h ⊢; rw [h]
  | cons a as ih =>
    cases u with
    | nil => simp [leadsCI] at h
    | cons c cs =>
      simp only [leadsCI, List.cons_append] at h ⊢
      split at h
      · rw [if_pos (by assumption)]
        exact ih h
      · exact Option.noConfusion h

theorem dropWsCount_append_cons {u w r : List Char} {n : Nat} {c : Char}
    (h : dropWsCount u = (n, c :: r)) :
    dropWsCount (u ++ w) = (n, c :: (r ++ w)) := by
  induction u generalizing n with
  | nil => simp [dropWsCount] at h
  | cons a as ih =>
    rw [List.cons_append]
    by_cases ha : wsChar a = true
    · have hu : dropWsCount (a :: as) = ((dropWsCount as).1 + 1, (dropWsCount as).2) := by
        simp [dropWsCount, ha]
      rw [hu, Prod.ext_iff] at h
      obtain ⟨h1, h2⟩ := h
      simp only at h1 h2
      have hd : dropWsCount as = ((dropWsCount as).1, c :: r) := by
        rw [← h2]
      have hrec := ih hd
      have hu2 : dropWsCount (a :: (as ++ w)) =
          ((dropWsCount (as ++ w)).1 + 1, (dropWsCount (as ++ w)).2) := by
        simp [dropWsCount, ha]
      rw [hu2, hrec]
      rw [h1]
    · have hu : dropWsCount (a :: as) = (0, a :: as) := by
        simp [dropWsCount, ha]
      rw [hu, Prod.ext_iff] at h
      obtain ⟨h1, h2⟩ := h
      simp only at h1 h2
      clear hu
      have hu2 : dropWsCount (a :: (as ++ w)) = (0, a :: (as ++ w)) := by
        simp [dropWsCount, ha]
      rw [hu2, ← h1]
      rw [List.cons_eq_cons] at h2
      rw [h2.1, h2.2]

theorem adminPhraseAt_append {u w : List Char} (h : adminPhraseAt u = true) :
    adminPhraseAt (u ++ w) = true := by
  unfold adminPhraseAt at h ⊢
  cases h1 : leadsCI "AD".data u with
  | none => rw [h1] at h; exact Bool.noConfusion h
  | some r1 =>
    simp only [h1] at h
    simp only [leadsCI_append h1]
    simp only [Bool.and_eq_true, ne_eq, decide_eq_true_eq, Option.isSome_iff_exists] at h
    obtain ⟨hn, r3, hsome⟩ := h
    cases h2 : (dropWsCount r1).2 with
    | nil => rw [h2] at hsome; simp [leadsCI] at hsome
    | cons c rest =>
      rw [h2] at hsome
      have hd : dropWsCount r1 = ((dropWsCount r1).1, c :: rest) := by rw [← h2]
      have hd2 := dropWsCount_append_cons (w := w) hd
      simp only [hd2]
      simp only [Bool.and_eq_true, ne_eq, decide_eq_true_eq, Option.isSome_iff_exists]
      refine ⟨hn, r3 ++ w, ?_⟩
      have := leadsCI_append (w := w) hsome
      simpa using this

theorem containsAdminPhrase_of_phraseAt {t : List Char} (h : adminPhraseAt t = true) :
    containsAdminPhrase t = true := by
  cases t with
  | nil => simp [adminPhraseAt, leadsCI] at h
  | cons c cs => simp [containsAdminPhrase, h]

theorem containsAdminPhrase_append_left {u w : List Char}
    (h : containsAdminPhrase u = true) : containsAdminPhrase (u ++ w) = true := by
  induction u with
  | nil => simp [containsAdminPhrase] at h
  | cons c cs ih =>
    simp only [containsAdminPhrase, Bool.or_eq_true, List.cons_append] at h ⊢
    rcases h with h | h
    · exact Or.inl (by simpa using adminPhraseAt_append (w := w) h)
    · exact Or.inr (ih h)

theorem containsAdminPhrase_append_right {u w : List Char}
    (h : containsAdminPhrase w = true) : containsAdminPhrase (u ++ w) = true := by
  induction u with
  | nil => simpa using h
  | cons c cs ih =>
    simp only [containsAdminPhrase, Bool.or_eq_true, List.cons_append]
    exact Or.inr ih

theorem containsAdminPhrase_slice {l : List Char} {a b : Nat}
    (h : containsAdminPhrase (pySliceL l a b) = true) :
    containsAdminPhrase l = true := by
  unfold pySliceL at h
  have h1 : containsAdminPhrase (l.drop a) = true := by
    rw [← List.take_append_drop (b - a) (l.drop a)]
    exact containsAdminPhrase_append_left h
  rw [← List.take_append_drop a l]
  exact containsAdminPhrase_append_right h1

theorem adminPhraseAt_of_core {t : List Char} {x : String × List Char}
    (h : adminCore t = some x) : adminPhraseAt t = true := by
  unfold adminCore at h
  unfold adminPhraseAt
  cases h1 : leadsCI "AD".data t with
  | none => rw [h1] at h; exact Option.noConfusion h
  | some r1 =>
    simp only [h1] at h ⊢
    by_cases hz : (dropWsCount r1).1 = 0
    · rw [if_pos hz] at h; exact Option.noConfusion h
    · rw [if_neg hz] at h
      cases h2 : leadsCI "Administration".data (dropWsCount r1).2 with
      | none => rw [h2] at h; exact Option.noConfusion h
      | some r2 => simp [hz, h2]

theorem contains_of_searchGuardedFrom {t : List Char} {r : String × String}
    (h : searchGuardedFrom adminCore t = some r) : containsAdminPhrase t = true := by
  induction t with
  | nil => simp [searchGuardedFrom] at h
  | cons c cs ih =>
    unfold searchGuardedFrom at h
    by_cases hw : wsChar c = true
    · rw [if_pos hw] at h
      cases hc : adminCore cs with
      | some p =>
        have hp : containsAdminPhrase cs = true :=
          containsAdminPhrase_of_phraseAt (adminPhraseAt_of_core hc)
        simp [containsAdminPhrase, hp]
      | none =>
        rw [hc] at h
        simp only [containsAdminPhrase, Bool.or_eq_true]
        exact Or.inr (ih h)
    · rw [if_neg hw] at h
      simp only [containsAdminPhrase, Bool.or_eq_true]
      exact Or.inr (ih h)

theorem contains_of_searchGuarded {t : List Char} {r : String × String}
    (h : searchGuarded adminCore t = some r) : containsAdminPhrase t = true := by
  unfold searchGuarded at h
  cases h1 : adminCore t with
  | some p => exact containsAdminPhrase_of_phraseAt (adminPhraseAt_of_core h1)
  | none => rw [h1] at h; exact contains_of_searchGuardedFrom h

theorem pySlice_data (s : String) (a b : Nat) :
    (pySlice s a b).data = pySliceL s.data a b := rfl

theorem containsAdminPhrase_boundedSegment {text : String} {s1 : Int}
    (h : containsAdminPhrase (boundedSegment text s1).data = true) :
    containsAdminPhrase text.data = true := by
  unfold boundedSegment at h
  dsimp only at h
  by_cases hc : s1 ≠ -1 ∧ (if s1 ≠ -1 then pyFind (pyUpper text) "AD 2.4" else -1) ≠ -1
  · rw [if_pos hc, pySlice_data] at h
    exact containsAdminPhrase_slice h
  · rw [if_neg hc] at h
    exact h

theorem containsAdminPhrase_segment {text : String}
    (h : containsAdminPhrase (op_hours_segment text).data = true) :
    containsAdminPhrase text.data = true := by
  unfold op_hours_segment at h
  dsimp only at h
  exact containsAdminPhrase_boundedSegment h

theorem gfv_cons_ne {k v f : String} {rest : List (String × String)} (h : ¬(k = f)) :
    get_field_value ((k, v) :: rest) f = get_field_value rest f := by
  simp [get_field_value, List.find?, h]

theorem gfv_cons_eq {k v : String} {rest : List (String × String)} :
    get_field_value ((k, v) :: rest) k = v := by
  simp [get_field_value, List.find?]

theorem parse_admin_nil {text : String}
    (h : searchGuarded adminCore (op_hours_segment text).data = none) :
    get_field_value (parse_operational_hours text) "AD Administration" = "NIL" := by
  unfold parse_operational_hours
  dsimp only
  rw [h]
  cases hop : searchGuarded operatorCore (op_hours_segment text).data with
  | some p =>
    obtain ⟨g0, g1⟩ := p
    simp [get_field_value, List.find?]
  | none =>
    cases hop2 : searchPlain oneADCore (op_hours_segment text).data with
    | some p =>
      obtain ⟨g0, g1⟩ := p
      simp [get_field_value, List.find?]
    | none => simp [get_field_value, List.find?]

theorem parse_operator_nil {text : String}
    (h1 : searchGuarded operatorCore (op_hours_segment text).data = none)
    (h2 : searchPlain oneADCore (op_hours_segment text).data = none) :
    get_field_value (parse_operational_hours text) "AD Operator" = "NIL" := by
  unfold parse_operational_hours
  dsimp only
  rw [h1, h2]
  cases hadm : searchGuarded adminCore (op_hours_segment text).data with
  | some p =>
    obtain ⟨g0, g1⟩ := p
    simp [get_field_value, List.find?]
  | none => simp [get_field_value, List.find?]

theorem parse_customs_nil {text : String}
    (h : searchPlain customsCore (op_hours_segment text).data = none) :
    get_field_value (parse_operational_hours text) "Customs and immigration" = "NIL" := by
  unfold parse_operational_hours
  dsimp only
  rw [h]
  cases hadm : searchGuarded adminCore (op_hours_segment text).data with
  | some p =>
    obtain ⟨g0, g1⟩ := p
    cases hop : searchGuarded operatorCore (op_hours_segment text).data with
    | some q =>
      obtain ⟨g2, g3⟩ := q
      simp [get_field_value, List.find?]
    | none =>
      cases hop2 : searchPlain oneADCore (op_hours_segment text).data with
      | some q =>
        obtain ⟨g2, g3⟩ := q
        simp [get_field_value, List.find?]
      | none => simp [get_field_value, List.find?]
  | none =>
    cases hop : searchGuarded operatorCore (op_hours_segment text).data with
    | some q =>
      obtain ⟨g2, g3⟩ := q
      simp [get_field_value, List.find?]
    | none =>
      cases hop2 : searchPlain oneADCore (op_hours_segment text).data with
      | some q =>
        obtain ⟨g2, g3⟩ := q
        simp [get_field_value, List.find?]
      | none => simp [get_field_value, List.find?]

theorem parse_ats_nil {text : String}
    (h : searchATS [] (op_hours_segment text).data = none) :
    get_field_value (parse_operational_hours text) "ATS" = "NIL" := by
  unfold parse_operational_hours
  dsimp only
  rw [h]
  cases hadm : searchGuarded adminCore (op_hours_segment text).data with
  | some p =>
    obtain ⟨g0, g1⟩ := p
    cases hop : searchGuarded operatorCore (op_hours_segment text).data with
    | some q =>
      obtain ⟨g2, g3⟩ := q
      simp [get_field_value, List.find?]
    | none =>
      cases hop2 : searchPlain oneADCore (op_hours_segment text).data with
      | some q =>
        obtain ⟨g2, g3⟩ := q
        simp [get_field_value, List.find?]
      | none => simp [get_field_value, List.find?]
  | none =>
    cases hop : searchGuarded operatorCore (op_hours_segment text).data with
    | some q =>
      obtain ⟨g2, g3⟩ := q
      simp [get_field_value, List.find?]
    | none =>
      cases hop2 : searchPlain oneADCore (op_hours_segment text).data with
      | some q =>
        obtain ⟨g2, g3⟩ := q
        simp [get_field_value, List.find?]
      | none => simp [get_field_value, List.find?]

/-! Claim C1. -/

/-- C1: every field of the operational-hours extraction is always
populated in the record get_airport_info builds: a field whose patterns
match nothing in the bounded segment receives the sentinel NIL (the four
hour and service fields and the remarks) or Not specified (the traffic
classification), never a missing value; in particular any page text
containing no AD Administration phrase anywhere (the literal AD, then
whitespace, then Administration, case-insensitively) yields
adAdministration NIL. -/
theorem C1_sentinel_fields (text code : String) :
    (searchGuarded adminCore (op_hours_segment text).data = none →
      (get_airport_info code text).adAdministration = "NIL") ∧
    (searchGuarded operatorCore (op_hours_segment text).data = none →
      searchPlain oneADCore (op_hours_segment text).data = none →
      (get_airport_info code text).adOperator = "NIL") ∧
    (searchPlain customsCore (op_hours_segment text).data = none →
      (get_airport_info code text).customsAndImmigration = "NIL") ∧
    (searchATS [] (op_hours_segment text).data = none →
      (get_airport_info code text).ats = "NIL") ∧
    (extract_remarks_core text = none →
      (get_airport_info code text).operationalRemarks = "NIL") ∧
    (extract_traffic_types_core text = none →
      (get_airport_info code text).trafficTypes = "Not specified") ∧
    (containsAdminPhrase text.data = false →
      (get_airport_info code text).adAdministration = "NIL") := by
  have hadm : ∀ h, (get_airport_info code text).adAdministration =
      get_field_value (parse_operational_hours text) h ∨ True := fun _ => Or.inr trivial
  refine ⟨?_, ?_, ?_, ?_, ?_, ?_, ?_⟩
  · intro h
    show get_field_value (parse_operational_hours text) "AD Administration" = "NIL"
    exact parse_admin_nil h
  · intro h1 h2
    show get_field_value (parse_operational_hours text) "AD Operator" = "NIL"
    exact parse_operator_nil h1 h2
  · intro h
    show get_field_value (parse_operational_hours text) "Customs and immigration" = "NIL"
    exact parse_customs_nil h
  · intro h
    show get_field_value (parse_operational_hours text) "ATS" = "NIL"
    exact parse_ats_nil h
  · intro h
    show extract_remarks text = "NIL"
    unfold extract_remarks
    rw [h]
    rfl
  · intro h
    show extract_traffic_types text = "Not specified"
    unfold extract_traffic_types
    rw [h]
    rfl
  · intro h
    show get_field_value (parse_operational_hours text) "AD Administration" = "NIL"
    apply parse_admin_nil
    cases hs : searchGuarded adminCore (op_hours_segment text).data with
    | none => rfl
    | some r =>
      have hc := containsAdminPhrase_segment (contains_of_searchGuarded hs)
      rw [hc] at h
      exact Bool.noConfusion h

theorem C1_sentinel_fields_witness :
    (get_airport_info "KJFK" "").adAdministration = "NIL" ∧
    (get_airport_info "KJFK" "").adOperator = "NIL" ∧
    (get_airport_info "KJFK" "").customsAndImmigration = "NIL" ∧
    (get_airport_info "KJFK" "").ats = "NIL" ∧
    (get_airport_info "KJFK" "").operationalRemarks = "NIL" ∧
    (get_airport_info "KJFK" "").trafficTypes = "Not specified" ∧
    containsAdminPhrase ("" : String).data = false :=
  ⟨(C1_sentinel_fields "" "KJFK").1 (by decide),
   (C1_sentinel_fields "" "KJFK").2.1 (by decide) (by decide),
   (C1_sentinel_fields "" "KJFK").2.2.1 (by decide),
   (C1_sentinel_fields "" "KJFK").2.2.2.1 (by decide),
   (C1_sentinel_fields "" "KJFK").2.2.2.2.1 (by decide),
   (C1_sentinel_fields "" "KJFK").2.2.2.2.2.1 (by decide),
   by decide⟩

/-! Claim C3. -/

theorem patternLoop_runLadder (w : NavWorld) (code : String) (acc : List NavAction)
    (us : List String) :
    patternLoop w code acc us =
      runLadder code acc (us.map fun u => (NavAction.gotoUrl u, w.gotoText u)) := by
  induction us generalizing acc with
  | nil => rfl
  | cons u us ih =>
    simp only [patternLoop, List.map_cons, runLadder]
    cases hg : w.gotoText u with
    | ok t =>
      by_cases ha : acceptText code t = true
      · simp [ha]
      · simp [ha, ih]
    | error e => simp [ih]

theorem runLadder_exhaust (code : String) :
    ∀ (steps : List (NavAction × Except Unit String)) (acc : List NavAction),
      (∀ a r, (a, r) ∈ steps → ∀ t, r = Except.ok t → acceptText code t = false) →
      (runLadder code acc steps).2 =
        Except.error ("Failed to navigate to airport " ++ code) := by
  intro steps
  induction steps with
  | nil => intro acc h; rfl
  | cons s rest ih =>
    intro acc h
    obtain ⟨a, r⟩ := s
    cases r with
    | ok t =>
      have hacc := h a (Except.ok t) (List.mem_cons_self _ _) t rfl
      simp only [runLadder, hacc, Bool.false_eq_true, if_false]
      exact ih (acc ++ [a]) (fun a' r' hm t' ht' => h a' r' (List.mem_cons_of_mem _ hm) t' ht')
    | error e =>
      simp only [runLadder]
      exact ih (acc ++ [a]) (fun a' r' hm t' ht' => h a' r' (List.mem_cons_of_mem _ hm) t' ht')

theorem aip_fallback_error (w : AipWorld) (baseUrl : String)
    (h2 : (match w.fallbackLink with
           | some (some hv) => !aipHrefOK hv
           | some none => true
           | none => true) = true) :
    aip_fallback w baseUrl = Except.error "Could not find current AIP link" := by
  unfold aip_fallback
  cases hf : w.fallbackLink with
  | none => rfl
  | some ho =>
    cases ho with
    | none => rfl
    | some hv =>
      rw [hf] at h2
      simp only [Bool.not_eq_true'] at h2
      simp [h2]

/-- C3 amended: the airport-reach step of the India scraper runs the
fallback ladder of the source in order: the scripted force-click of the
matched anchor, then (only when that click raised) a URL constructed
from the anchor href, then the direct-URL conventions; a page is
accepted exactly when its text contains the normalized airport code or
its length exceeds 500 characters; when every attempt is exhausted
without acceptance the step raises a navigation failure, and the
current-issue resolution raises when no anchor matches any heuristic.
There is no separate plain click of the located anchor. -/
theorem C3_reach_ladder :
    (∀ (w : NavWorld) (airport_code : String),
      open_airport w airport_code =
        runLadder (pyStrip (pyUpper airport_code)) []
          (attemptLadder w (pyStrip (pyUpper airport_code)))) ∧
    (∀ (w : NavWorld) (airport_code : String),
      (∀ a r, (a, r) ∈ attemptLadder w (pyStrip (pyUpper airport_code)) →
        ∀ t, r = Except.ok t → acceptText (pyStrip (pyUpper airport_code)) t = false) →
      (open_airport w airport_code).2 =
        Except.error ("Failed to navigate to airport " ++ pyStrip (pyUpper airport_code))) ∧
    (∀ (code t : String),
      acceptText code t = (hasSub code.data (pyUpper t).data || decide (t.length > 500))) ∧
    (∀ (w : AipWorld) (baseUrl : String), noMatchingAnchor w = true →
      navigate_to_current_aip w baseUrl =
        Except.error "Could not find current AIP link") := by
  have hladder : ∀ (w : NavWorld) (airport_code : String),
      open_airport w airport_code =
        runLadder (pyStrip (pyUpper airport_code)) []
          (attemptLadder w (pyStrip (pyUpper airport_code))) := by
    intro w airport_code
    by_cases hnav : w.navFrame = true
    · by_cases hlink : w.linkCount > 0
      · cases hjs : w.jsResult with
        | ok t =>
          by_cases ha : acceptText (pyStrip (pyUpper airport_code)) t = true
          · simp [open_airport, attemptLadder, hnav, hlink, hjs, ha, runLadder]
          · cases hcu : w.currentAipUrl with
            | none =>
              simp [open_airport, attemptLadder, hnav, hlink, hjs, ha, hcu, runLadder]
            | some cu =>
              simp [open_airport, attemptLadder, hnav, hlink, hjs, ha, hcu, runLadder,
                patternLoop_runLadder]
        | error e =>
          cases hh : w.href with
          | none =>
            cases hcu : w.currentAipUrl with
            | none =>
              simp [open_airport, attemptLadder, hnav, hlink, hjs, hh, hcu, runLadder]
            | some cu =>
              simp [open_airport, attemptLadder, hnav, hlink, hjs, hh, hcu, runLadder,
                patternLoop_runLadder]
          | some hrefv =>
            by_cases hend : pyEndsWith hrefv ".html" = true
            · cases hcu : w.currentAipUrl with
              | none =>
                simp [open_airport, attemptLadder, hnav, hlink, hjs, hh, hend, hcu, runLadder]
              | some cu =>
                cases hg : w.gotoText (hrefFallbackUrl cu
                    (pyReplaceChar ' ' '-' (hashHead hrefv))) with
                | ok t =>
                  by_cases ha : acceptText (pyStrip (pyUpper airport_code)) t = true
                  · simp [open_airport, attemptLadder, hnav, hlink, hjs, hh, hend, hcu, hg,
                      ha, runLadder]
                  · simp [open_airport, attemptLadder, hnav, hlink, hjs, hh, hend, hcu, hg,
                      ha, runLadder, patternLoop_runLadder]
                | error e2 =>
                  simp [open_airport, attemptLadder, hnav, hlink, hjs, hh, hend, hcu, hg,
                    runLadder, patternLoop_runLadder]
            · cases hcu : w.currentAipUrl with
              | none =>
                simp [open_airport, attemptLadder, hnav, hlink, hjs, hh, hend, hcu, runLadder]
              | some cu =>
                simp [open_airport, attemptLadder, hnav, hlink, hjs, hh, hend, hcu, runLadder,
                  patternLoop_runLadder]
      · cases hcu : w.currentAipUrl with
        | none => simp [open_airport, attemptLadder, hnav, hlink, hcu, runLadder]
        | some cu =>
          simp [open_airport, attemptLadder, hnav, hlink, hcu, runLadder,
            patternLoop_runLadder]
    · cases hcu : w.currentAipUrl with
      | none => simp [open_airport, attemptLadder, hnav, hcu, runLadder]
      | some cu =>
        simp [open_airport, attemptLadder, hnav, hcu, runLadder, patternLoop_runLadder]
  refine ⟨hladder, ?_, fun code t => rfl, ?_⟩
  · intro w airport_code hall
    rw [hladder]
    exact runLadder_exhaust _ _ [] hall
  · intro w baseUrl h
    unfold noMatchingAnchor at h
    simp only [Bool.and_eq_true] at h
    obtain ⟨h1, h2⟩ := h
    unfold navigate_to_current_aip
    cases hn : w.newLink with
    | none => exact aip_fallback_error w baseUrl h2
    | some ho =>
      cases ho with
      | none => exact aip_fallback_error w baseUrl h2
      | some hv =>
        rw [hn] at h1
        simp only [Bool.not_eq_true'] at h1
        simp only [h1, Bool.false_eq_true, if_false]
        exact aip_fallback_error w baseUrl h2

/-- World of the C3 counterexample: the navigation frame and the anchor
are present, the scripted click succeeds but yields unaccepted text, and
every direct URL yields unaccepted text, so the step exhausts and
raises; a plain anchor click never appears among the performed actions. -/
def c3World : NavWorld :=
  { navFrame := true
    linkCount := 1
    href := some "VI-AD-2.1VIDP-en-GB.html"
    jsResult := Except.ok "nope"
    gotoText := fun _ => Except.ok "nope"
    currentAipUrl := some "https://aim-india.aai.aero/eaip/eaip-v2-05-2025/index-en-GB.html" }

/-- C3 counterexample: the claim lists a plain click of the located
anchor as the first fallback, before the force-click via a scripted DOM
query; on a world where the anchor is located the first performed action
is the scripted click, and no plain anchor click is ever attempted even
though the whole ladder fails. -/
theorem C3_reach_ladder_counterexample :
    c3World.linkCount > 0 ∧
    (open_airport c3World "VIDP").1.head? = some NavAction.jsClick ∧
    ¬(NavAction.anchorClick ∈ (open_airport c3World "VIDP").1) ∧
    (open_airport c3World "VIDP").2 =
      Except.error "Failed to navigate to airport VIDP" := by
  refine ⟨by decide, by decide, by decide, by rfl⟩

/-- World with a current-issue anchor that fails every heuristic. -/
def c3AipWorld : AipWorld :=
  { newLink := some (some "foo.html")
    fallbackLink := none
    gotoFails := fun _ => false }

theorem exhaust_of_all (code : String) (steps : List (NavAction × Except Unit String))
    (h : steps.all (fun s =>
      match s.2 with
      | Except.ok t => !(acceptText code t)
      | Except.error _ => true) = true) :
    ∀ a r, (a, r) ∈ steps → ∀ t, r = Except.ok t → acceptText code t = false := by
  intro a r hm t ht
  have h2 := List.all_eq_true.mp h (a, r) hm
  rw [ht] at h2
  simpa using h2

theorem C3_reach_ladder_witness :
    (open_airport c3World "VIDP").2 =
      Except.error ("Failed to navigate to airport " ++ pyStrip (pyUpper "VIDP")) ∧
    navigate_to_current_aip c3AipWorld "https://aim-india.aai.aero/aip-supplements?page=1" =
      Except.error "Could not find current AIP link" :=
  ⟨C3_reach_ladder.2.1 c3World "VIDP" (exhaust_of_all _ _ (by decide)),
   C3_reach_ladder.2.2.2 c3AipWorld "https://aim-india.aai.aero/aip-supplements?page=1"
     (by decide)⟩

end Clearway
